import Mathlib

/-!
Verification development for the zenfetch/cbonsai growth engine, text layout
engine and persistence helpers, shallowly embedded from `src/cbonsai.c`.

Modelling conventions:
* C `int` arithmetic is modelled with `Int` (no value in the claims under
  study approaches 2^31, except where noted); C `%` and `/` on `int` truncate
  toward zero, hence `Int.tmod` / `Int.tdiv`.
* `rand()` is modelled as reading successive values from a stream
  `Nat → Nat`, reduced mod 2^31 (glibc's `rand` range); `srand(seed)` is an
  arbitrary function from seeds to streams.  The stream index is part of the
  growth state.
* Screen writes, modulus operations and branch invocations are recorded as an
  event list so that claims about write positions, divisors and counters can
  be stated; ncurses colour attributes are not modelled (`chooseColor` in the
  source consumes exactly one `rand()` draw per call, with the same modulus in
  noir and colour mode, which is what the model keeps).
* `checkKeyPress` is modelled as "no key pressed" and `verbosity` as 0 (the
  debug `mvwprintw` calls are not glyph writes).
* The recursive `branch` procedure is embedded as a fuel-indexed interpreter
  `runJob`; `none` means the fuel was exhausted.
-/

/-- Branch kinds, from `enum branchType {trunk, shootLeft, shootRight, dying, dead}`. -/
inductive BranchType where
  | trunk | shootLeft | shootRight | dying | dead
deriving DecidableEq, Repr

/-- The C code casts `(myCounters->shootCounter % 2) + 1` to `enum branchType`. -/
def typeOfInt (i : Int) : BranchType :=
  if i = 0 then .trunk
  else if i = 1 then .shootLeft
  else if i = 2 then .shootRight
  else if i = 3 then .dying
  else .dead

/-- Events recorded by the embedded growth run: a branch invocation
(`myCounters->branches++` at the top of `branch`), a use of `%` with the given
divisor, and a glyph write to the tree canvas (`mvwprintw(objects->treeWin, y, x, ...)`). -/
inductive Event where
  | call (t : BranchType) (life : Int)
  | modUse (d : Int)
  | write (y x : Int) (t : BranchType) (s : String)
deriving DecidableEq, Repr

/-- Random stream: the values successive `rand()` calls would produce. -/
abbrev RandStream := Nat → Nat

/-- The configuration and environment fixed for one growth run: the fields of
`struct config` that `branch`/`setDeltas`/`chooseString` read, plus the tree
window size (`getmaxy`/`getmaxx` of `objects->treeWin`) and the random stream. -/
structure Ctx where
  stream : RandStream
  lifeStart : Int
  multiplier : Int
  baseType : Int
  leaves : List String
  maxY : Int
  maxX : Int

/-- Mutable state threaded through the growth run: `struct counters` plus the
position in the random stream. -/
structure GrowState where
  branches : Int
  shoots : Int
  shootCounter : Int
  idx : Nat
deriving DecidableEq, Repr

/-- One `rand()` call: next stream value, reduced to glibc's range [0, 2^31). -/
def rand (ctx : Ctx) (st : GrowState) : Int × GrowState :=
  (((ctx.stream st.idx) % 2147483648 : Nat), { st with idx := st.idx + 1 })

/-- `roll(&dice, mod)`, i.e. `dice = rand() % mod`, recording the divisor. -/
def roll (ctx : Ctx) (m : Int) (st : GrowState) : Int × GrowState × List Event :=
  let r := rand ctx st
  (r.1.tmod m, r.2, [.modUse m])

/-- Embedding of `setDeltas` (src/cbonsai.c:462-569): given branch type,
remaining life and age, produce `(dx, dy)`, consuming random draws and
recording the divisors used. -/
def setDeltas (ctx : Ctx) (t : BranchType) (life age : Int) (st : GrowState) :
    (Int × Int) × GrowState × List Event :=
  match t with
  | .trunk =>
    if ctx.baseType = 3 then
      -- organic curved trunk
      let r1 := roll ctx 10 st
      let dy0 : Int := if r1.1 ≤ 4 then -1 else 0
      if age ≤ 3 then ((0, -1), r1.2.1, r1.2.2)
      else if age ≤ 10 then
        let r2 := roll ctx 10 r1.2.1
        let dx : Int := if r2.1 ≤ 2 then -1 else if 8 ≤ r2.1 then 1 else 0
        ((dx, dy0), r2.2.1, r1.2.2 ++ r2.2.2)
      else
        let r2 := roll ctx 10 r1.2.1
        let dx : Int := if r2.1 ≤ 3 then -1 else if 7 ≤ r2.1 then 1 else 0
        ((dx, dy0), r2.2.1, r1.2.2 ++ r2.2.2)
    else
      if age ≤ 2 ∨ life < 4 then
        let r := rand ctx st
        ((r.1.tmod 3 - 1, 0), r.2, [.modUse 3])
      else if age < ctx.multiplier * 3 then
        -- `(int) (multiplier * 0.5)` truncates toward zero, i.e. `tdiv 2`
        let dy : Int := if age.tmod (ctx.multiplier.tdiv 2) = 0 then -1 else 0
        let r := roll ctx 10 st
        let dx : Int :=
          if 0 ≤ r.1 ∧ r.1 ≤ 0 then -2
          else if 1 ≤ r.1 ∧ r.1 ≤ 3 then -1
          else if 4 ≤ r.1 ∧ r.1 ≤ 5 then 0
          else if 6 ≤ r.1 ∧ r.1 ≤ 8 then 1
          else if 9 ≤ r.1 ∧ r.1 ≤ 9 then 2
          else 0
        ((dx, dy), r.2.1, .modUse (ctx.multiplier.tdiv 2) :: r.2.2)
      else
        let r := roll ctx 10 st
        let dy : Int := if 2 < r.1 then -1 else 0
        let r2 := rand ctx r.2.1
        ((r2.1.tmod 3 - 1, dy), r2.2, r.2.2 ++ [.modUse 3])
  | .shootLeft =>
    let r1 := roll ctx 10 st
    let dy : Int :=
      if 0 ≤ r1.1 ∧ r1.1 ≤ 1 then -1
      else if 2 ≤ r1.1 ∧ r1.1 ≤ 7 then 0
      else if 8 ≤ r1.1 ∧ r1.1 ≤ 9 then 1
      else 0
    let r2 := roll ctx 10 r1.2.1
    let dx : Int :=
      if 0 ≤ r2.1 ∧ r2.1 ≤ 1 then -2
      else if 2 ≤ r2.1 ∧ r2.1 ≤ 5 then -1
      else if 6 ≤ r2.1 ∧ r2.1 ≤ 8 then 0
      else if 9 ≤ r2.1 ∧ r2.1 ≤ 9 then 1
      else 0
    ((dx, dy), r2.2.1, r1.2.2 ++ r2.2.2)
  | .shootRight =>
    let r1 := roll ctx 10 st
    let dy : Int :=
      if 0 ≤ r1.1 ∧ r1.1 ≤ 1 then -1
      else if 2 ≤ r1.1 ∧ r1.1 ≤ 7 then 0
      else if 8 ≤ r1.1 ∧ r1.1 ≤ 9 then 1
      else 0
    let r2 := roll ctx 10 r1.2.1
    let dx : Int :=
      if 0 ≤ r2.1 ∧ r2.1 ≤ 1 then 2
      else if 2 ≤ r2.1 ∧ r2.1 ≤ 5 then 1
      else if 6 ≤ r2.1 ∧ r2.1 ≤ 8 then 0
      else if 9 ≤ r2.1 ∧ r2.1 ≤ 9 then -1
      else 0
    ((dx, dy), r2.2.1, r1.2.2 ++ r2.2.2)
  | .dying =>
    let r1 := roll ctx 10 st
    let dy : Int :=
      if 0 ≤ r1.1 ∧ r1.1 ≤ 1 then -1
      else if 2 ≤ r1.1 ∧ r1.1 ≤ 8 then 0
      else if 9 ≤ r1.1 ∧ r1.1 ≤ 9 then 1
      else 0
    let r2 := roll ctx 15 r1.2.1
    let dx : Int :=
      if 0 ≤ r2.1 ∧ r2.1 ≤ 0 then -3
      else if 1 ≤ r2.1 ∧ r2.1 ≤ 2 then -2
      else if 3 ≤ r2.1 ∧ r2.1 ≤ 5 then -1
      else if 6 ≤ r2.1 ∧ r2.1 ≤ 8 then 0
      else if 9 ≤ r2.1 ∧ r2.1 ≤ 11 then 1
      else if 12 ≤ r2.1 ∧ r2.1 ≤ 13 then 2
      else if 14 ≤ r2.1 ∧ r2.1 ≤ 14 then 3
      else 0
    ((dx, dy), r2.2.1, r1.2.2 ++ r2.2.2)
  | .dead =>
    let r1 := roll ctx 10 st
    let dy : Int :=
      if 0 ≤ r1.1 ∧ r1.1 ≤ 2 then -1
      else if 3 ≤ r1.1 ∧ r1.1 ≤ 6 then 0
      else if 7 ≤ r1.1 ∧ r1.1 ≤ 9 then 1
      else 0
    let r2 := rand ctx r1.2.1
    ((r2.1.tmod 3 - 1, dy), r2.2, r1.2.2 ++ [.modUse 3])

/-- Embedding of `chooseColor` (src/cbonsai.c:418-459): each call makes exactly
one `rand()` draw; noir and colour mode use the same moduli, so only the draw
and its divisor are modelled. -/
def chooseColor (ctx : Ctx) (t : BranchType) (st : GrowState) : GrowState × List Event :=
  match t with
  | .trunk | .shootLeft | .shootRight => ((rand ctx st).2, [.modUse 2])
  | .dying => ((rand ctx st).2, [.modUse 10])
  | .dead => ((rand ctx st).2, [.modUse 3])

/-- `strncpy(branchStr, ..., maxStrLen - 1)`: truncation to 31 units
(the C code truncates at 31 bytes; characters stand in for bytes here). -/
def strTrunc31 (s : String) : String := ⟨s.data.take 31⟩

/-- `conf->leaves[rand() % conf->leavesSize]`, truncated as in the source. -/
def leafPick (ctx : Ctx) (st : GrowState) : String × GrowState × List Event :=
  let r := rand ctx st
  let n : Int := (ctx.leaves.length : Int)
  (strTrunc31 (ctx.leaves.getD (r.1.tmod n).toNat "?"), r.2, [.modUse n])

/-- Embedding of `chooseString` (src/cbonsai.c:571-661).  The `"?"` branches
correspond to the `strcpy(branchStr, "?")` fallback that survives when no
`else if` matches. -/
def chooseString (ctx : Ctx) (t0 : BranchType) (life dx dy : Int) (st : GrowState) :
    String × GrowState × List Event :=
  let t := if life < 4 then .dying else t0
  if ctx.baseType = 3 then
    let age := ctx.lifeStart - life
    match t with
    | .trunk =>
      (if age ≤ 3 then
        if dx < 0 then "%###" else if dx = 0 then "###" else "###%"
      else if age ≤ 8 then
        if dx < 0 then "%##" else if dx = 0 then "###" else "##%"
      else if age ≤ 15 then
        if dx < 0 then "%#" else if dx = 0 then "##" else "#%"
      else
        if dx < 0 then "%" else if dx = 0 then "#" else "%", st, [])
    | .shootLeft =>
      (if 0 < dy then "%" else if dy = 0 then "*+"
       else if dx < 0 then "%*" else if dx = 0 then "*%"
       else if 0 < dx then "+" else "?", st, [])
    | .shootRight =>
      (if 0 < dy then "%" else if dy = 0 then "+*"
       else if dx < 0 then "*%" else if dx = 0 then "%*"
       else if 0 < dx then "+" else "?", st, [])
    | .dying => ("-=:.", st, [])
    | .dead => leafPick ctx st
  else
    match t with
    | .trunk =>
      (if dy = 0 then "/~" else if dx < 0 then "\\|"
       else if dx = 0 then "/|\\" else if 0 < dx then "|/" else "?", st, [])
    | .shootLeft =>
      (if 0 < dy then "\\" else if dy = 0 then "\\_"
       else if dx < 0 then "\\|" else if dx = 0 then "/|"
       else if 0 < dx then "/" else "?", st, [])
    | .shootRight =>
      (if 0 < dy then "/" else if dy = 0 then "_/"
       else if dx < 0 then "\\|" else if dx = 0 then "/|"
       else if 0 < dx then "/" else "?", st, [])
    | .dying | .dead => leafPick ctx st

/-- The `wcwidth` implementation shipped with the source (src/cbonsai.c:117-133),
on the first code point of the glyph string (the `mbrtowc` result). -/
def wcwidthFn (wc : Nat) : Int :=
  if wc = 0 then 0
  else if wc < 32 ∨ (0x7f ≤ wc ∧ wc < 0xa0) then -1
  else if 0x1100 ≤ wc ∧
      (wc ≤ 0x115f ∨ wc = 0x2329 ∨ wc = 0x232a ∨
       (0x2e80 ≤ wc ∧ wc ≤ 0xa4cf ∧ wc ≠ 0x303f) ∨
       (0xac00 ≤ wc ∧ wc ≤ 0xd7a3) ∨
       (0xf900 ≤ wc ∧ wc ≤ 0xfaff) ∨
       (0xfe10 ≤ wc ∧ wc ≤ 0xfe19) ∨
       (0xfe30 ≤ wc ∧ wc ≤ 0xfe6f) ∨
       (0xff00 ≤ wc ∧ wc ≤ 0xff60) ∨
       (0xffe0 ≤ wc ∧ wc ≤ 0xffe6) ∨
       (0x20000 ≤ wc ∧ wc ≤ 0x2fffd) ∨
       (0x30000 ≤ wc ∧ wc ≤ 0x3fffd)) then 2
  else 1

/-- First code point of the glyph (`mbrtowc(&wc, branchStr, 32, ps)`; `wc`
stays 0 for an empty string). -/
def wcFirst (s : String) : Nat :=
  match s.data with
  | [] => 0
  | c :: _ => c.toNat

/-- Display width of the glyph's leading character. -/
def glyphWidth (s : String) : Int := wcwidthFn (wcFirst s)

/-- The guarded canvas write (src/cbonsai.c:746-747):
`if (x % wcwidth(wc) == 0) mvwprintw(objects->treeWin, y, x, "%s", branchStr);`.
The divisor of the guard's `%` is recorded first, then the write when it fires. -/
def emitWrite (y x : Int) (t : BranchType) (s : String) : List Event :=
  if x.tmod (glyphWidth s) = 0 then [.modUse (glyphWidth s), .write y x t s]
  else [.modUse (glyphWidth s)]

/-- The branch-spawning cascade of `branch` (src/cbonsai.c:682-721), given the
already-decremented remaining life.  Returns the child branch to spawn (if
any), the updated shoot cooldown, state and events.  `&&`/`||` short-circuit
as in C, so `life % conf->multiplier` is evaluated (and its divisor recorded)
only when `(rand() % 3) == 0` fails. -/
def spawnChoice (ctx : Ctx) (t : BranchType) (life sc : Int) (st : GrowState) :
    Option (BranchType × Int) × Int × GrowState × List Event :=
  if life < 3 then (some (.dead, life), sc, st, [])
  else if t = .trunk ∧ life < ctx.multiplier + 2 then (some (.dying, life), sc, st, [])
  else if (t = .shootLeft ∨ t = .shootRight) ∧ life < ctx.multiplier + 2 then
    (some (.dying, life), sc, st, [])
  else if t = .trunk then
    let r1 := rand ctx st
    let condEv : Bool × List Event :=
      if r1.1.tmod 3 = 0 then (true, [.modUse 3])
      else ((life.tmod ctx.multiplier = 0 : Bool), [.modUse 3, .modUse ctx.multiplier])
    if condEv.1 then
      let r2 := rand ctx r1.2
      if r2.1.tmod 8 = 0 ∧ 7 < life then
        let r3 := rand ctx r2.2
        (some (.trunk, life + (r3.1.tmod 5 - 2)), ctx.multiplier * 2, r3.2,
          condEv.2 ++ [.modUse 8, .modUse 5])
      else if sc ≤ 0 then
        let st3 := { r2.2 with shoots := r2.2.shoots + 1,
                               shootCounter := r2.2.shootCounter + 1 }
        (some (typeOfInt (st3.shootCounter.tmod 2 + 1), life + ctx.multiplier),
          ctx.multiplier * 2, st3, condEv.2 ++ [.modUse 8, .modUse 2])
      else (none, sc, r2.2, condEv.2 ++ [.modUse 8])
    else (none, sc, r1.2, condEv.2)
  else (none, sc, st, [])

/-- The floor clamp (src/cbonsai.c:679-680):
`if (dy > 0 && y > (maxY - 2)) dy--;`. -/
def clampDy (maxY y dy : Int) : Int :=
  if 0 < dy ∧ maxY - 2 < y then dy - 1 else dy

/-- A pending activity of the fuel interpreter: a fresh `branch(...)` call, or
the `while (life > 0)` loop of an active call. -/
inductive Job where
  | call (y x : Int) (t : BranchType) (life : Int)
  | loop (y x : Int) (t : BranchType) (life sc : Int)

/-- Row of the cursor a pending job works at. -/
def jobY : Job → Int
  | .call y _ _ _ => y
  | .loop y _ _ _ _ => y

/-- Fuel-indexed interpreter for `branch` (src/cbonsai.c:663-757).  `none`
means the fuel ran out.  One unit of fuel is consumed per call entry and per
loop iteration. -/
def runJob (ctx : Ctx) : Nat → GrowState → Job → Option (GrowState × List Event)
  | 0, st, .loop _ _ _ life _ => if life ≤ 0 then some (st, []) else none
  | 0, _, .call .. => none
  | n + 1, st, .call y x t life =>
    match runJob ctx n { st with branches := st.branches + 1 }
        (.loop y x t life ctx.multiplier) with
    | none => none
    | some (st', ev) => some (st', .call t life :: ev)
  | n + 1, st, .loop y x t life sc =>
    if life ≤ 0 then some (st, []) else
    let life' := life - 1
    let age := ctx.lifeStart - life'
    let sd := setDeltas ctx t life' age st
    let dx := sd.1.1
    let dy := clampDy ctx.maxY y sd.1.2
    let sp := spawnChoice ctx t life' sc sd.2.1
    let after : Option (GrowState × List Event) :=
      match sp.1 with
      | none => some (sp.2.2.1, [])
      | some (t', l') => runJob ctx n sp.2.2.1 (.call y x t' l')
    match after with
    | none => none
    | some (st3, ev3) =>
      let x' := x + dx
      let y' := y + dy
      let cc := chooseColor ctx t st3
      let cs := chooseString ctx t life' dx dy cc.1
      match runJob ctx n cs.2.1 (.loop y' x' t life' (sp.2.1 - 1)) with
      | none => none
      | some (st6, ev7) =>
        some (st6, sd.2.2 ++ sp.2.2.2 ++ ev3 ++ cc.2 ++ cs.2.2 ++ emitWrite y' x' t cs.1 ++ ev7)

/-- Embedding of `growTree` (src/cbonsai.c:957-976): reset the counters, draw
`shootCounter = rand()`, then grow a trunk from the bottom centre of the tree
window. -/
def growTree (ctx : Ctx) (fuel : Nat) : Option (GrowState × List Event) :=
  let st0 : GrowState := { branches := 0, shoots := 0, shootCounter := 0, idx := 0 }
  let r := rand ctx st0
  runJob ctx fuel { r.2 with shootCounter := r.1 }
    (.call (ctx.maxY - 1) (ctx.maxX.tdiv 2) .trunk ctx.lifeStart)

/-- Projection of a run's event list onto glyph writes: the sequence of
(position, kind, glyph) writes to the tree canvas. -/
def writesOf (ev : List Event) : List (Int × Int × BranchType × String) :=
  ev.filterMap fun e =>
    match e with
    | .write y x t s => some (y, x, t, s)
    | _ => none

/-- The parameters a run is "constructed with": configuration, canvas
dimensions and seed (src/cbonsai.c:1376-1394 seeds the RNG with `conf.seed`). -/
structure RunParams where
  lifeStart : Int
  multiplier : Int
  baseType : Int
  leaves : List String
  maxY : Int
  maxX : Int
  seed : Int
deriving DecidableEq

/-- Build the run context from parameters, given an arbitrary model `srand` of
the libc generator (mapping a seed to the stream of `rand()` values). -/
def mkCtx (srand : Int → RandStream) (p : RunParams) : Ctx :=
  { stream := srand p.seed, lifeStart := p.lifeStart, multiplier := p.multiplier,
    baseType := p.baseType, leaves := p.leaves, maxY := p.maxY, maxX := p.maxX }

/-- The write sequence a run produces (`none` if the fuel ran out). -/
def growWrites (ctx : Ctx) (fuel : Nat) : Option (List (Int × Int × BranchType × String)) :=
  (growTree ctx fuel).map fun r => writesOf r.2

/-! ## Text layout engine (`drawMessage` / `addSpaces`, src/cbonsai.c:759-887) -/

/-- C locale `isspace`. -/
def isspaceC (c : Char) : Bool :=
  c = ' ' ∨ c = '\t' ∨ c = '\n' ∨ c = '\x0b' ∨ c = '\x0c' ∨ c = '\r'

/-- State of the word-wrap loop in `drawMessage`: the tracked line position,
the word buffer with its length, the characters emitted to the message window
so far, and the window cursor column (what `getyx` would report; the window is
`maxWidth + 2` columns wide and the cursor wraps at the right edge). -/
structure WrapState where
  linePosition : Int
  wordBuffer : List Char
  wordLength : Int
  out : List Char
  col : Int
deriving DecidableEq, Repr

/-- Emit one character to the message window, advancing the cursor column
(a newline returns the cursor to column 0; otherwise it advances by one and
wraps at the window width, modelling ncurses auto-advance). -/
def emitChar (winW : Int) (st : WrapState) (c : Char) : WrapState :=
  { st with out := st.out ++ [c],
            col := if c = '\n' then 0 else (st.col + 1).emod winW }

/-- Emit a string of characters. -/
def emitStr (winW : Int) (st : WrapState) (s : List Char) : WrapState :=
  s.foldl (emitChar winW) st

/-- Embedding of `addSpaces` (src/cbonsai.c:759-770): spaces are emitted, and
the line position advanced, only if `*linePosition < (maxWidth - count)`. -/
def addSpaces (maxWidth count : Int) (st : WrapState) : WrapState :=
  if st.linePosition < maxWidth - count then
    { emitStr (maxWidth + 2) st (List.replicate count.toNat ' ') with
      linePosition := st.linePosition + count }
  else st

/-- One iteration of the `drawMessage` word-wrap loop (src/cbonsai.c:814-885)
on the current character (`'\x00'` plays the role of the terminating NUL).
`none` is the `"Error while parsing message"` exit. -/
def msgStep (maxWidth : Int) (st : WrapState) (c : Char) : Option WrapState :=
  if ¬(isspaceC c ∨ c = '\x00') ∧ st.wordLength < 512 then
    -- append this character to the word buffer
    some { st with wordBuffer := st.wordBuffer ++ [c],
                   wordLength := st.wordLength + 1,
                   linePosition := st.linePosition + 1 }
  else if isspaceC c ∨ c = '\x00' then
    if st.linePosition ≤ maxWidth then
      -- current line can fit word: print word, then handle the whitespace
      let st1 := { emitStr (maxWidth + 2) st st.wordBuffer with
                   wordLength := 0, wordBuffer := [] }
      some (if c = ' ' then addSpaces maxWidth 1 st1
            else if c = '\t' then addSpaces maxWidth 1 st1
            else if c = '\n' then { emitChar (maxWidth + 2) st1 '\n' with linePosition := 0 }
            else st1)
    else if maxWidth < st.wordLength then
      -- word can't fit within a single line: just print it
      let st1 := emitStr (maxWidth + 2) st (st.wordBuffer ++ [' '])
      some { st1 with wordLength := 0, wordBuffer := [], linePosition := st1.col }
    else
      -- go to next line, print newline then word
      let st1 := emitStr (maxWidth + 2) st ('\n' :: (st.wordBuffer ++ [' ']))
      some { st1 with linePosition := st.wordLength, wordLength := 0, wordBuffer := [] }
  else none

/-- The whole word-wrap loop of `drawMessage`: scan the message up to its
terminating NUL, then one final step for the NUL itself. -/
def drawMessageWrap (maxWidth : Int) (msg : List Char) : Option WrapState :=
  (msg.takeWhile (· ≠ '\x00') ++ ['\x00']).foldlM (msgStep maxWidth)
    { linePosition := 0, wordBuffer := [], wordLength := 0, out := [], col := 0 }

/-! ## Persistence (`saveToFile` / `loadFromFile`, src/cbonsai.c:209-244) -/

/-- Decimal digits, most significant first, with explicit fuel (structural, so
that the kernel can evaluate it; any fuel above the value is enough). -/
def natDecAux : Nat → Nat → List Char
  | 0, _ => []
  | f + 1, n =>
    if n < 10 then [Char.ofNat (48 + n)]
    else natDecAux f (n / 10) ++ [Char.ofNat (48 + n % 10)]

/-- Decimal digits of a natural number, most significant first
(the digit string `printf("%d", ...)` produces for a non-negative value). -/
def natDecDigits (n : Nat) : List Char := natDecAux (n + 1) n

/-- `printf("%d", i)` for an int. -/
def intDecimal (i : Int) : List Char :=
  if i < 0 then '-' :: natDecDigits (-i).toNat else natDecDigits i.toNat

/-- Embedding of `saveToFile` (src/cbonsai.c:209-221): the file content
`fprintf(fp, "%d %d", seed, branchCount)` produces. -/
def saveFileContent (seed branchCount : Int) : List Char :=
  intDecimal seed ++ [' '] ++ intDecimal branchCount

/-- Accumulating digit scanner for one base: consume leading digits,
returning the value and the rest. -/
def scanDigits (base : Nat) (isD : Char → Bool) (val : Char → Nat) :
    List Char → Nat → Nat × List Char
  | [], acc => (acc, [])
  | c :: rest, acc =>
    if isD c then scanDigits base isD val rest (acc * base + val c)
    else (acc, c :: rest)

/-- Hexadecimal digit test/value and octal digit test, as `strtol` uses. -/
def hexDigitC (c : Char) : Bool :=
  c.isDigit ∨ ('a' ≤ c ∧ c ≤ 'f') ∨ ('A' ≤ c ∧ c ≤ 'F')

/-- Value of a hexadecimal digit. -/
def hexValC (c : Char) : Nat :=
  if c.isDigit then c.toNat - 48
  else if 'a' ≤ c ∧ c ≤ 'f' then c.toNat - 87 else c.toNat - 55

/-- Octal digit test. -/
def octDigitC (c : Char) : Bool := '0' ≤ c ∧ c ≤ '7'

/-- One `%i` conversion of `fscanf`: skip whitespace, optional sign, then an
integer in C syntax (leading `0x`/`0X` with a following hex digit is hex; any
other leading `0` is octal, possibly the bare digit `0` itself; otherwise a
nonempty run of decimal digits). -/
def scanIntC (cs : List Char) : Option (Int × List Char) :=
  let cs1 := cs.dropWhile (fun c => isspaceC c)
  let sgn : Bool × List Char :=
    match cs1 with
    | [] => (false, [])
    | c :: r => if c = '-' then (true, r) else if c = '+' then (false, r) else (false, c :: r)
  let body : Option (Nat × List Char) :=
    match sgn.2 with
    | [] => none
    | c1 :: r1 =>
      if c1 = '0' then
        if (r1.headD ' ' = 'x' ∨ r1.headD ' ' = 'X') ∧ hexDigitC (r1.tail.headD ' ') then
          some (scanDigits 16 hexDigitC hexValC r1.tail 0)
        else some (scanDigits 8 octDigitC (fun c => c.toNat - 48) r1 0)
      else if c1.isDigit then
        some (scanDigits 10 Char.isDigit (fun c => c.toNat - 48) (c1 :: r1) 0)
      else none
  match body with
  | none => none
  | some (n, rest) => some (if sgn.1 then -(n : Int) else (n : Int), rest)

/-- `fscanf(fp, "%i %i", &seed, &targetBranchCount)`: both conversions must
succeed for the result to count as 2. -/
def scanTwoInts (cs : List Char) : Option (Int × Int) :=
  match scanIntC cs with
  | none => none
  | some (a, rest) =>
    match scanIntC rest with
    | none => none
    | some (b, _) => some (a, b)

/-- The configuration fields `loadFromFile` may assign. -/
structure ConfLoad where
  seed : Int
  targetBranchCount : Int
deriving DecidableEq, Repr

/-- Embedding of `loadFromFile` (src/cbonsai.c:224-244): on a successful scan
of two integers the configuration is updated, otherwise the function returns 1
and the configuration is untouched. -/
def loadFromFile (conf : ConfLoad) (content : List Char) : Int × ConfLoad :=
  match scanTwoInts content with
  | some (a, b) => (0, { seed := a, targetBranchCount := b })
  | none => (1, conf)

/-- Event classifier: a `%`-divisor record. -/
def isModUse : Event → Bool
  | .modUse _ => true
  | _ => false

/-- Number of branch invocations recorded in an event list. -/
def callCount (ev : List Event) : Nat :=
  ev.countP fun e => match e with | .call .. => true | _ => false

/-- Whether an event list records a `%` with divisor 0 (a division by zero in
the C program). -/
def hasZeroDivisor (ev : List Event) : Bool :=
  ev.any fun e => match e with | .modUse d => d == 0 | _ => false

/-- A configuration on which the growth recursion can run forever: default
style, `startLife = 9`, `multiplier = 5`, and a random stream that makes every
trunk spawn a trunk sibling with its life increased by 2 (`rand() % 5 = 4`)
on its first step.  Draw `4k` seeds the shoot counter / is the trunk's `dx`
draw, `4k+2 = 0` passes `rand() % 3 == 0`, `4k+3 = 0` passes
`rand() % 8 == 0`, and `4k+4 = 4` gives the `+2` life offset. -/
def ctxDiv : Ctx :=
  { stream := fun i => if i % 4 = 0 then 4 else 0, lifeStart := 9, multiplier := 5,
    baseType := 1, leaves := ["&"], maxY := 10, maxX := 20 }

/-! ## Claim theorems -/

/-- Claim C2: a glyph write attempted by a growth step lands on the tree
canvas if and only if the target column (the cursor's x after moving by dx;
`runJob` invokes `emitWrite` with exactly that column) is a multiple of the
glyph's display width; a write that would split a wide glyph is suppressed. -/
theorem c2_wide_glyph_write_iff (y x : Int) (t : BranchType) (s : String) :
    Event.write y x t s ∈ emitWrite y x t s ↔ glyphWidth s ∣ x := by
  unfold emitWrite
  by_cases h : x.tmod (glyphWidth s) = 0 <;>
    simp [h, Int.dvd_iff_tmod_eq_zero]

/-- Claim C6: spawn thresholds of the growth step, applied to the
already-decremented remaining life, first match wins: below 3 a `Dead` branch
is spawned at the current position with the same remaining life, for every
kind; otherwise, for `Trunk`/`ShootLeft`/`ShootRight` with remaining life
below `multiplier + 2`, a `Dying` branch is spawned likewise. -/
theorem c6_spawn_thresholds (ctx : Ctx) (t : BranchType) (life sc : Int) (st : GrowState) :
    (life < 3 → spawnChoice ctx t life sc st = (some (.dead, life), sc, st, [])) ∧
    (3 ≤ life → (t = .trunk ∨ t = .shootLeft ∨ t = .shootRight) →
      life < ctx.multiplier + 2 →
      spawnChoice ctx t life sc st = (some (.dying, life), sc, st, [])) := by
  constructor
  · intro h
    unfold spawnChoice
    rw [if_pos h]
  · intro h3 ht hm
    unfold spawnChoice
    rw [if_neg (by omega)]
    rcases ht with h | h | h <;> subst h <;> simp [hm]

/-- Claim C6 witness: a shoot with remaining life 2 spawns a `Dead` branch and
a trunk with remaining life 3 under multiplier 5 spawns a `Dying` branch. -/
theorem c6_spawn_thresholds_witness :
    spawnChoice { stream := fun _ => 0, lifeStart := 32, multiplier := 5, baseType := 1,
                  leaves := ["&"], maxY := 10, maxX := 20 } .shootRight 2 7
        { branches := 0, shoots := 0, shootCounter := 0, idx := 0 } =
      (some (.dead, 2), 7, { branches := 0, shoots := 0, shootCounter := 0, idx := 0 }, []) ∧
    spawnChoice { stream := fun _ => 0, lifeStart := 32, multiplier := 5, baseType := 1,
                  leaves := ["&"], maxY := 10, maxX := 20 } .trunk 3 7
        { branches := 0, shoots := 0, shootCounter := 0, idx := 0 } =
      (some (.dying, 3), 7, { branches := 0, shoots := 0, shootCounter := 0, idx := 0 }, []) :=
  ⟨(c6_spawn_thresholds _ _ _ _ _).1 (by decide),
   (c6_spawn_thresholds _ _ _ _ _).2 (by decide) (Or.inl rfl) (by decide)⟩

/-- Claim C10: once remaining life drops below 4 at glyph-selection time, the
glyph is chosen by the `Dying` rules for every branch kind (the trunk and
shoot glyph tables are not consulted), and under the non-organic styles
(`baseType ≠ 3`) that means a string drawn from the configured leaf set via
`rand() % leavesSize`. -/
theorem c10_dying_override (ctx : Ctx) (t : BranchType) (life dx dy : Int) (st : GrowState)
    (h : life < 4) :
    chooseString ctx t life dx dy st = chooseString ctx .dying life dx dy st ∧
    (ctx.baseType ≠ 3 → chooseString ctx t life dx dy st = leafPick ctx st) := by
  constructor
  · unfold chooseString
    rw [if_pos h, if_pos h]
  · intro hb
    unfold chooseString
    rw [if_pos h, if_neg hb]

/-- Claim C10 witness: a trunk glyph at remaining life 3 under the default
style is the dying-rule glyph, i.e. a leaf pick. -/
theorem c10_dying_override_witness :
    chooseString { stream := fun _ => 0, lifeStart := 32, multiplier := 5, baseType := 1,
                   leaves := ["&"], maxY := 10, maxX := 20 } .trunk 3 0 0
        { branches := 0, shoots := 0, shootCounter := 0, idx := 0 } =
      chooseString { stream := fun _ => 0, lifeStart := 32, multiplier := 5, baseType := 1,
                     leaves := ["&"], maxY := 10, maxX := 20 } .dying 3 0 0
        { branches := 0, shoots := 0, shootCounter := 0, idx := 0 } ∧
    chooseString { stream := fun _ => 0, lifeStart := 32, multiplier := 5, baseType := 1,
                   leaves := ["&"], maxY := 10, maxX := 20 } .trunk 3 0 0
        { branches := 0, shoots := 0, shootCounter := 0, idx := 0 } =
      leafPick { stream := fun _ => 0, lifeStart := 32, multiplier := 5, baseType := 1,
                 leaves := ["&"], maxY := 10, maxX := 20 }
        { branches := 0, shoots := 0, shootCounter := 0, idx := 0 } :=
  ⟨(c10_dying_override _ _ _ _ _ _ (by decide)).1,
   (c10_dying_override _ _ _ _ _ _ (by decide)).2 (by decide)⟩

/-- Claim C4: two growth runs constructed with the same seed and identical
configuration (including identical canvas dimensions) produce an identical
sequence of (position, kind, glyph) writes, for any model of the libc
generator and any fuel. -/
theorem c4_deterministic_writes (srand : Int → RandStream) (p₁ p₂ : RunParams)
    (fuel₁ fuel₂ : Nat) (hseed : p₁.seed = p₂.seed) (hconf : p₁ = p₂)
    (hfuel : fuel₁ = fuel₂) :
    growWrites (mkCtx srand p₁) fuel₁ = growWrites (mkCtx srand p₂) fuel₂ := by
  subst hconf; subst hfuel; rfl

/-- Claim C4 witness: the two runs of the scenario configuration with seed 42
produce the same write sequence. -/
theorem c4_deterministic_writes_witness :
    growWrites (mkCtx (fun s i => (s.toNat + i) % 7)
      { lifeStart := 32, multiplier := 5, baseType := 1, leaves := ["&"],
        maxY := 20, maxX := 40, seed := 42 }) 500 =
    growWrites (mkCtx (fun s i => (s.toNat + i) % 7)
      { lifeStart := 32, multiplier := 5, baseType := 1, leaves := ["&"],
        maxY := 20, maxX := 40, seed := 42 }) 500 :=
  c4_deterministic_writes _ _ _ _ _ rfl rfl rfl

/-! ### Persistence round-trip lemmas -/

/-- Facts about a decimal digit character. -/
theorem digitChar_spec (d : Nat) (h : d < 10) :
    (Char.ofNat (48 + d)).isDigit = true ∧
    (Char.ofNat (48 + d)).toNat - 48 = d ∧
    isspaceC (Char.ofNat (48 + d)) = false ∧
    Char.ofNat (48 + d) ≠ '-' ∧ Char.ofNat (48 + d) ≠ '+' ∧
    (Char.ofNat (48 + d) = '0' ↔ d = 0) := by
  interval_cases d <;> exact ⟨rfl, rfl, rfl, by decide, by decide, by decide⟩

/-- The digit string of `n` is nonempty, starts with a digit that is not a
sign, not whitespace, and is `'0'` only for `n = 0`. -/
theorem natDecAux_shape (f : Nat) : ∀ n, n < f →
    ∃ c cs, natDecAux f n = c :: cs ∧ c.isDigit = true ∧ isspaceC c = false ∧
      c ≠ '-' ∧ c ≠ '+' ∧ (c = '0' → n = 0) := by
  induction f with
  | zero => intro n h; omega
  | succ f ih =>
    intro n h
    by_cases h10 : n < 10
    · refine ⟨Char.ofNat (48 + n), [], by simp [natDecAux, h10], ?_⟩
      obtain ⟨h1, _, h3, h4, h5, h6⟩ := digitChar_spec n h10
      exact ⟨h1, h3, h4, h5, fun hc => h6.mp hc⟩
    · have hdiv : n / 10 < f := by
        have := Nat.div_lt_self (by omega : 0 < n) (by omega : 1 < 10)
        omega
      obtain ⟨c, cs, heq, h1, h3, h4, h5, h6⟩ := ih (n / 10) hdiv
      refine ⟨c, cs ++ [Char.ofNat (48 + n % 10)], ?_, h1, h3, h4, h5, ?_⟩
      · simp [natDecAux, h10, heq]
      · intro hc
        have := h6 hc
        omega

/-- The digit scanner consumes exactly the digit string of `n`, shifting the
accumulator past it. -/
theorem scanDigits_natDecAux (f : Nat) : ∀ n, n < f → ∀ (rest : List Char) (acc : Nat),
    scanDigits 10 Char.isDigit (fun c => c.toNat - 48) (natDecAux f n ++ rest) acc =
      scanDigits 10 Char.isDigit (fun c => c.toNat - 48) rest
        (acc * 10 ^ (natDecAux f n).length + n) := by
  induction f with
  | zero => intro n h; omega
  | succ f ih =>
    intro n h rest acc
    by_cases h10 : n < 10
    · obtain ⟨h1, h2, _⟩ := digitChar_spec n h10
      simp [natDecAux, h10, scanDigits, h1, h2]
    · have hdiv : n / 10 < f := by
        have := Nat.div_lt_self (by omega : 0 < n) (by omega : 1 < 10)
        omega
      obtain ⟨h1, h2, _⟩ := digitChar_spec (n % 10) (Nat.mod_lt n (by omega))
      have hlen : (natDecAux (f + 1) n).length = (natDecAux f (n / 10)).length + 1 := by
        simp [natDecAux, h10]
      rw [show natDecAux (f + 1) n = natDecAux f (n / 10) ++ [Char.ofNat (48 + n % 10)] by
        simp [natDecAux, h10]]
      rw [List.append_assoc, ih (n / 10) hdiv, List.singleton_append]
      simp only [scanDigits, h1, if_pos, h2]
      congr 1
      rw [List.length_append, List.length_singleton, pow_succ, ← Nat.mul_assoc]
      have hmod := Nat.div_add_mod n 10
      generalize acc * 10 ^ (natDecAux f (n / 10)).length = A
      omega

/-- A digit scan of the empty list returns the accumulator. -/
theorem scanDigits_nil (b : Nat) (isD : Char → Bool) (v : Char → Nat) (acc : Nat) :
    scanDigits b isD v [] acc = (acc, []) := rfl

/-- A digit scan stops at a non-digit head. -/
theorem scanDigits_cons_stop (b : Nat) (isD : Char → Bool) (v : Char → Nat)
    (c : Char) (cs : List Char) (acc : Nat) (h : isD c = false) :
    scanDigits b isD v (c :: cs) acc = (acc, c :: cs) := by
  simp [scanDigits, h]

/-- Leading whitespace is skipped by `%i`. -/
theorem scanIntC_cons_space (l : List Char) : scanIntC (' ' :: l) = scanIntC l := by
  unfold scanIntC
  rw [List.dropWhile_cons_of_pos (by decide)]

/-- One `%i` conversion reads back exactly the decimal rendering of `i`,
leaving the rest (empty or space-led) untouched. -/
theorem scanIntC_intDecimal (i : Int) (rest : List Char)
    (hr : rest = [] ∨ ∃ cs, rest = ' ' :: cs) :
    scanIntC (intDecimal i ++ rest) = some (i, rest) := by
  have hstop10 : ∀ acc : Nat,
      scanDigits 10 Char.isDigit (fun c => c.toNat - 48) rest acc = (acc, rest) := by
    rcases hr with rfl | ⟨cs, rfl⟩
    · intro acc; rfl
    · intro acc; exact scanDigits_cons_stop _ _ _ _ _ _ (by decide)
  have hstop8 : ∀ acc : Nat,
      scanDigits 8 octDigitC (fun c => c.toNat - 48) rest acc = (acc, rest) := by
    rcases hr with rfl | ⟨cs, rfl⟩
    · intro acc; rfl
    · intro acc; exact scanDigits_cons_stop _ _ _ _ _ _ (by decide)
  have hheadx : ¬((rest.headD ' ' = 'x' ∨ rest.headD ' ' = 'X') ∧
      hexDigitC (rest.tail.headD ' ') = true) := by
    rcases hr with rfl | ⟨cs, rfl⟩ <;> simp
  rcases lt_trichotomy i 0 with hneg | hzero | hpos
  · -- negative: '-' followed by the digits of |i|
    have hmpos : 0 < (-i).toNat := by omega
    obtain ⟨c, cs, heq, hdig, hsp, hminus, hplus, hzero'⟩ :=
      natDecAux_shape ((-i).toNat + 1) (-i).toNat (by omega)
    have hid : intDecimal i = '-' :: natDecAux ((-i).toNat + 1) (-i).toNat := by
      unfold intDecimal natDecDigits
      rw [if_pos hneg]
    have hc0 : ¬(c = '0') := fun hc => absurd (hzero' hc) (by omega)
    rw [hid, heq]
    unfold scanIntC
    rw [List.cons_append, List.dropWhile_cons_of_neg (by decide)]
    dsimp only
    rw [if_pos rfl]
    dsimp only
    rw [List.cons_append]
    dsimp only
    rw [if_neg hc0, if_pos hdig,
      show c :: (cs ++ rest) = (c :: cs) ++ rest from rfl, ← heq,
      scanDigits_natDecAux _ _ (by omega) rest 0, hstop10]
    dsimp only
    congr 1
    rw [if_pos rfl]
    congr 1
    omega
  · -- zero: the single digit '0', read back as octal 0
    subst hzero
    have h0 : intDecimal 0 = ['0'] := by decide
    rw [h0]
    unfold scanIntC
    rw [List.cons_append, List.nil_append, List.dropWhile_cons_of_neg (by decide)]
    dsimp only
    rw [if_neg (by decide), if_neg (by decide)]
    dsimp only
    rw [if_pos rfl, if_neg hheadx, hstop8]
    dsimp only
    rw [if_neg (by decide)]
    simp
  · -- positive: plain decimal digits
    obtain ⟨c, cs, heq, hdig, hsp, hminus, hplus, hzero'⟩ :=
      natDecAux_shape (i.toNat + 1) i.toNat (by omega)
    have hid : intDecimal i = natDecAux (i.toNat + 1) i.toNat := by
      unfold intDecimal natDecDigits
      rw [if_neg (by omega)]
    have hc0 : ¬(c = '0') := fun hc => absurd (hzero' hc) (by omega)
    rw [hid, heq]
    unfold scanIntC
    rw [List.cons_append, List.dropWhile_cons_of_neg (by simp [hsp])]
    dsimp only
    rw [if_neg hminus, if_neg hplus]
    dsimp only
    rw [if_neg hc0, if_pos hdig,
      show c :: (cs ++ rest) = (c :: cs) ++ rest from rfl, ← heq,
      scanDigits_natDecAux _ _ (by omega) rest 0, hstop10]
    dsimp only
    rw [if_neg (by decide)]
    congr 2
    omega

/-- `fscanf("%i %i")` reads back exactly what `fprintf("%d %d")` wrote. -/
theorem scanTwoInts_save (s c : Int) : scanTwoInts (saveFileContent s c) = some (s, c) := by
  unfold scanTwoInts saveFileContent
  rw [List.append_assoc, List.singleton_append,
    scanIntC_intDecimal s (' ' :: intDecimal c) (Or.inr ⟨_, rfl⟩)]
  dsimp only
  rw [scanIntC_cons_space, show intDecimal c = intDecimal c ++ [] by simp,
    scanIntC_intDecimal c [] (Or.inl rfl)]

/-- Claim C3: persistence round-trip and atomicity on failure.  Saving any
`(seed, branchCount)` pair and loading it back yields exactly that
`(seed, targetBranchCount)` pair with success code 0; any content on which the
two-integer scan fails yields failure code 1 and leaves the configuration
untouched. -/
theorem c3_persistence_roundtrip :
    (∀ (conf : ConfLoad) (seed count : Int),
      loadFromFile conf (saveFileContent seed count) =
        (0, { seed := seed, targetBranchCount := count })) ∧
    (∀ (conf : ConfLoad) (content : List Char),
      scanTwoInts content = none → loadFromFile conf content = (1, conf)) := by
  constructor
  · intro conf seed count
    unfold loadFromFile
    rw [scanTwoInts_save]
  · intro conf content h
    unfold loadFromFile
    rw [h]

/-- Claim C3 witness: the pair (1234, 57) round-trips, and the malformed
contents `"57"` (a single integer) and `"abc"` (non-numeric text) are rejected
with the configuration left unchanged. -/
theorem c3_persistence_roundtrip_witness :
    loadFromFile { seed := 9, targetBranchCount := 9 } (saveFileContent 1234 57) =
      (0, { seed := 1234, targetBranchCount := 57 }) ∧
    loadFromFile { seed := 9, targetBranchCount := 9 } "57".data =
      (1, { seed := 9, targetBranchCount := 9 }) ∧
    loadFromFile { seed := 9, targetBranchCount := 9 } "abc".data =
      (1, { seed := 9, targetBranchCount := 9 }) :=
  ⟨c3_persistence_roundtrip.1 _ 1234 57,
   c3_persistence_roundtrip.2 _ _ (by decide),
   c3_persistence_roundtrip.2 _ _ (by decide)⟩

/-! ### Text layout lemmas -/

/-- Emitting characters appends them to the output and leaves the tracked
line position, word buffer and word length unchanged. -/
theorem emitStr_spec (winW : Int) (s : List Char) : ∀ st : WrapState,
    (emitStr winW st s).out = st.out ++ s ∧
    (emitStr winW st s).linePosition = st.linePosition ∧
    (emitStr winW st s).wordBuffer = st.wordBuffer ∧
    (emitStr winW st s).wordLength = st.wordLength := by
  induction s with
  | nil => intro st; simp [emitStr]
  | cons c cs ih =>
    intro st
    obtain ⟨h1, h2, h3, h4⟩ := ih (emitChar winW st c)
    simp only [emitStr, List.foldl_cons] at h1 h2 h3 h4 ⊢
    refine ⟨?_, ?_, ?_, ?_⟩
    · rw [h1]; simp [emitChar]
    · rw [h2]; simp [emitChar]
    · rw [h3]; simp [emitChar]
    · rw [h4]; simp [emitChar]

/-- `addSpaces` with count 1: away from the right edge it emits one space and
advances the line position by one; at the edge it does nothing. -/
theorem addSpaces_one (maxWidth : Int) (st : WrapState) :
    (st.linePosition < maxWidth - 1 →
      (addSpaces maxWidth 1 st).out = st.out ++ [' '] ∧
      (addSpaces maxWidth 1 st).linePosition = st.linePosition + 1) ∧
    (maxWidth - 1 ≤ st.linePosition → addSpaces maxWidth 1 st = st) := by
  constructor
  · intro hlt
    unfold addSpaces
    rw [if_pos (by omega)]
    have h := emitStr_spec (maxWidth + 2) (List.replicate (1 : Int).toNat ' ') st
    simp only [Int.toNat_one, List.replicate_one] at h
    exact ⟨h.1, rfl⟩
  · intro hge
    unfold addSpaces
    rw [if_neg (by omega)]

/-- Claim C9 (amended): when a space, tab or newline is reached and the
line-so-far including the buffered word fits (`linePosition ≤ maxWidth`), the
step emits the buffered word; a newline is then emitted and resets the line
position to 0; a space or tab emits one space and advances the line position
by exactly one column only when the line position is strictly below
`maxWidth - 1` — otherwise nothing further is emitted and the line position is
unchanged (`addSpaces` suppresses the space at the right edge). -/
theorem c9_fit_whitespace (maxWidth : Int) (st : WrapState) (c : Char)
    (hc : c = ' ' ∨ c = '\t' ∨ c = '\n') (hfit : st.linePosition ≤ maxWidth) :
    ∃ st', msgStep maxWidth st c = some st' ∧
      (c = '\n' → st'.out = st.out ++ st.wordBuffer ++ ['\n'] ∧ st'.linePosition = 0) ∧
      ((c = ' ' ∨ c = '\t') →
        (st.linePosition < maxWidth - 1 →
          st'.out = st.out ++ st.wordBuffer ++ [' '] ∧
          st'.linePosition = st.linePosition + 1) ∧
        (maxWidth - 1 ≤ st.linePosition →
          st'.out = st.out ++ st.wordBuffer ∧ st'.linePosition = st.linePosition)) := by
  have hw := emitStr_spec (maxWidth + 2) st.wordBuffer st
  have hsp : isspaceC c = true := by rcases hc with rfl | rfl | rfl <;> decide
  have hnn : ¬(¬(isspaceC c = true ∨ c = '\x00') ∧ st.wordLength < 512) := by simp [hsp]
  unfold msgStep
  rw [if_neg hnn, if_pos (Or.inl hsp), if_pos hfit]
  dsimp only
  rcases hc with rfl | rfl | rfl
  · rw [if_pos rfl]
    refine ⟨_, rfl, fun h => absurd h (by decide), fun _ => ⟨?_, ?_⟩⟩
    · intro hlt
      have ha := (addSpaces_one maxWidth { emitStr (maxWidth + 2) st st.wordBuffer with
        wordLength := 0, wordBuffer := [] }).1 (by dsimp only; rw [hw.2.1]; omega)
      rw [ha.1, ha.2]
      dsimp only
      rw [hw.1, hw.2.1]
      exact ⟨by simp, rfl⟩
    · intro hge
      have ha := (addSpaces_one maxWidth { emitStr (maxWidth + 2) st st.wordBuffer with
        wordLength := 0, wordBuffer := [] }).2 (by dsimp only; rw [hw.2.1]; omega)
      rw [ha]
      dsimp only
      rw [hw.1, hw.2.1]
      exact ⟨rfl, rfl⟩
  · rw [if_neg (by decide), if_pos rfl]
    refine ⟨_, rfl, fun h => absurd h (by decide), fun _ => ⟨?_, ?_⟩⟩
    · intro hlt
      have ha := (addSpaces_one maxWidth { emitStr (maxWidth + 2) st st.wordBuffer with
        wordLength := 0, wordBuffer := [] }).1 (by dsimp only; rw [hw.2.1]; omega)
      rw [ha.1, ha.2]
      dsimp only
      rw [hw.1, hw.2.1]
      exact ⟨by simp, rfl⟩
    · intro hge
      have ha := (addSpaces_one maxWidth { emitStr (maxWidth + 2) st st.wordBuffer with
        wordLength := 0, wordBuffer := [] }).2 (by dsimp only; rw [hw.2.1]; omega)
      rw [ha]
      dsimp only
      rw [hw.1, hw.2.1]
      exact ⟨rfl, rfl⟩
  · rw [if_neg (by decide), if_neg (by decide), if_pos rfl]
    refine ⟨_, rfl, fun _ => ⟨?_, rfl⟩, fun h => absurd h (by decide)⟩
    dsimp only [emitChar]
    rw [hw.1]

/-- Claim C9 counterexample: with `maxWidth = 3` and the reachable state after
buffering the word `abc` (line position 3, which fits: 3 ≤ 3), the triggering
space is NOT emitted and the line position does NOT advance — `addSpaces`
suppresses it at the right edge — contradicting "a space or tab adds exactly
one column to the line position".  The state arises from the message `"abc "`. -/
theorem c9_counterexample :
    ¬(∀ st' : WrapState,
        msgStep 3 { linePosition := 3, wordBuffer := ['a', 'b', 'c'], wordLength := 3,
                    out := [], col := 0 } ' ' = some st' →
        st'.out = ['a', 'b', 'c', ' '] ∧ st'.linePosition = 3 + 1) := by
  intro h
  have := h { linePosition := 3, wordBuffer := [], wordLength := 0,
              out := ['a', 'b', 'c'], col := 3 } (by decide)
  exact absurd this.2 (by decide)

/-- Claim C9 witness: a concrete fitting step away from the edge (`maxWidth     = 9`,
line position 5, word `ab`) emits the word, the space, and advances by one. -/
theorem c9_fit_whitespace_witness :
    ∃ st', msgStep 9 { linePosition := 5, wordBuffer := ['a', 'b'], wordLength := 2,
                       out := ['x'], col := 1 } ' ' = some st' ∧
      st'.out = ['x', 'a', 'b', ' '] ∧ st'.linePosition = 6 := by
  obtain ⟨st', h1, _, h3⟩ :=
    c9_fit_whitespace 9 { linePosition := 5, wordBuffer := ['a', 'b'], wordLength := 2,
                          out := ['x'], col := 1 } ' ' (Or.inl rfl) (by decide)
  obtain ⟨h4, _⟩ := h3 (Or.inl rfl)
  obtain ⟨h5, h6⟩ := h4 (by decide)
  exact ⟨st', h1, by simpa using h5, h6⟩


/-! ### Frame lemmas for the growth-step components -/

/-- `setDeltas` leaves the branch counter alone and records only divisors. -/
theorem setDeltas_frame (ctx : Ctx) (t : BranchType) (life age : Int) (st : GrowState) :
    (setDeltas ctx t life age st).2.1.branches = st.branches ∧
    ((setDeltas ctx t life age st).2.2).all isModUse = true := by
  cases t <;> dsimp only [setDeltas, roll, rand] <;> (repeat' split) <;> exact ⟨rfl, rfl⟩

/-- `spawnChoice` leaves the branch counter alone and records only divisors. -/
theorem spawnChoice_frame (ctx : Ctx) (t : BranchType) (life sc : Int) (st : GrowState) :
    (spawnChoice ctx t life sc st).2.2.1.branches = st.branches ∧
    ((spawnChoice ctx t life sc st).2.2.2).all isModUse = true := by
  dsimp only [spawnChoice, rand]
  (repeat' split) <;> exact ⟨rfl, rfl⟩

/-- `chooseColor` leaves the branch counter alone and records only divisors. -/
theorem chooseColor_frame (ctx : Ctx) (t : BranchType) (st : GrowState) :
    (chooseColor ctx t st).1.branches = st.branches ∧
    ((chooseColor ctx t st).2).all isModUse = true := by
  cases t <;> exact ⟨rfl, rfl⟩

/-- `chooseString` leaves the branch counter alone and records only divisors. -/
theorem chooseString_frame (ctx : Ctx) (t : BranchType) (life dx dy : Int) (st : GrowState) :
    (chooseString ctx t life dx dy st).2.1.branches = st.branches ∧
    ((chooseString ctx t life dx dy st).2.2).all isModUse = true := by
  dsimp only [chooseString, leafPick, rand]
  (repeat' split) <;> exact ⟨rfl, rfl⟩

/-- A divisor-only event list records no branch invocation. -/
theorem modOnly_callCount {ev : List Event} (h : ev.all isModUse = true) :
    callCount ev = 0 := by
  induction ev with
  | nil => rfl
  | cons e rest ih =>
    rw [List.all_cons, Bool.and_eq_true] at h
    cases e <;> simp_all [callCount, List.countP_cons, isModUse]

/-- A divisor-only event list contains no canvas write. -/
theorem modOnly_no_write {ev : List Event} (h : ev.all isModUse = true)
    (y x : Int) (t : BranchType) (s : String) : Event.write y x t s ∉ ev := by
  intro hmem
  have := List.all_eq_true.mp h _ hmem
  simp [isModUse] at this

/-- `emitWrite` records no branch invocation, and any write it records is at
the given row. -/
theorem emitWrite_frame (y x : Int) (t : BranchType) (s : String) :
    callCount (emitWrite y x t s) = 0 ∧
    ∀ y' x' t' s', Event.write y' x' t' s' ∈ emitWrite y x t s → y' = y ∧ x' = x := by
  unfold emitWrite
  split
  · refine ⟨rfl, ?_⟩
    intro y' x' t' s' hm
    simp at hm
    exact ⟨hm.1, hm.2.1⟩
  · refine ⟨rfl, ?_⟩
    intro y' x' t' s' hm
    simp at hm

/-- `callCount` distributes over append. -/
theorem callCount_append (a b : List Event) :
    callCount (a ++ b) = callCount a + callCount b :=
  List.countP_append _ _ _


/-! ### Branch counter invariant -/

/-- Any run of the interpreter adds exactly the number of recorded branch
invocations to the `branches` counter. -/
theorem runJob_branches (ctx : Ctx) : ∀ (n : Nat) (st : GrowState) (job : Job)
    (st' : GrowState) (ev : List Event),
    runJob ctx n st job = some (st', ev) →
    st'.branches = st.branches + (callCount ev : Int) := by
  intro n
  induction n using Nat.strong_induction_on with
  | _ n ih =>
  intro st job st' ev h
  cases job with
  | call y x t life =>
    cases n with
    | zero => simp [runJob] at h
    | succ m =>
      rw [runJob] at h
      split at h
      · cases h
      · rename_i st2 ev2 heq
        cases h
        have h2 := ih m (by omega) _ _ _ _ heq
        simp [callCount, List.countP_cons] at h2 ⊢
        omega
  | loop y x t life sc =>
    cases n with
    | zero =>
      rw [runJob] at h
      split at h
      · cases h; simp [callCount]
      · cases h
    | succ m =>
      by_cases hl : life ≤ 0
      · rw [runJob, if_pos hl] at h
        cases h; simp [callCount]
      · rw [runJob, if_neg hl] at h
        dsimp only at h
        rcases hsp : (spawnChoice ctx t (life - 1) sc
            (setDeltas ctx t (life - 1) (ctx.lifeStart - (life - 1)) st).2.1).1
          with _ | ⟨t', l'⟩
        · -- no child spawned
          rw [hsp] at h
          dsimp only at h
          split at h
          · cases h
          · rename_i st6 ev7 heq
            cases h
            have h6 := ih m (by omega) _ _ _ _ heq
            rw [h6, (chooseString_frame _ _ _ _ _ _).1, (chooseColor_frame _ _ _).1,
              (spawnChoice_frame _ _ _ _ _).1, (setDeltas_frame _ _ _ _ _).1]
            simp only [callCount_append,
              modOnly_callCount (setDeltas_frame _ _ _ _ _).2,
              modOnly_callCount (spawnChoice_frame _ _ _ _ _).2,
              modOnly_callCount (chooseColor_frame _ _ _).2,
              modOnly_callCount (chooseString_frame _ _ _ _ _ _).2,
              (emitWrite_frame _ _ _ _).1]
            simp [callCount]
        · -- child spawned
          rw [hsp] at h
          dsimp only at h
          split at h
          · cases h
          · rename_i st3 ev3 heq1
            split at h
            · cases h
            · rename_i st6 ev7 heq2
              cases h
              have h3 := ih m (by omega) _ _ _ _ heq1
              have h6 := ih m (by omega) _ _ _ _ heq2
              rw [h6, (chooseString_frame _ _ _ _ _ _).1, (chooseColor_frame _ _ _).1, h3,
                (spawnChoice_frame _ _ _ _ _).1, (setDeltas_frame _ _ _ _ _).1]
              simp only [callCount_append,
                modOnly_callCount (setDeltas_frame _ _ _ _ _).2,
                modOnly_callCount (spawnChoice_frame _ _ _ _ _).2,
                modOnly_callCount (chooseColor_frame _ _ _).2,
                modOnly_callCount (chooseString_frame _ _ _ _ _ _).2,
                (emitWrite_frame _ _ _ _).1]
              push_cast
              omega

/-- Claim C8: every invocation of the growth routine — every branch cursor
created, of any kind — increments the total-branches counter exactly once:
any interpreter run adds exactly its number of recorded invocations to the
counter, and after a whole `growTree` run (which resets the counter) the
counter equals the total number of branch invocations. -/
theorem c8_branch_counter :
    (∀ (ctx : Ctx) (n : Nat) (st : GrowState) (job : Job) (st₁ : GrowState) (ev₁ : List Event),
      runJob ctx n st job = some (st₁, ev₁) →
      st₁.branches = st.branches + (callCount ev₁ : Int)) ∧
    (∀ (ctx : Ctx) (fuel : Nat) (st' : GrowState) (ev : List Event),
      growTree ctx fuel = some (st', ev) →
      st'.branches = (callCount ev : Int)) := by
  refine ⟨fun ctx n st job st₁ ev₁ h => runJob_branches ctx n st job st₁ ev₁ h, ?_⟩
  intro ctx fuel st' ev h
  unfold growTree at h
  dsimp only at h
  have := runJob_branches ctx fuel _ _ _ _ h
  simpa [rand] using this

/-- Claim C8 witness: a concrete finished run whose final branch counter
equals its number of recorded invocations. -/
theorem c8_branch_counter_witness :
    ∃ st' ev, growTree { stream := fun _ => 1, lifeStart := 2, multiplier := 5, baseType := 1, leaves := ["&"], maxY := 10, maxX := 20 } 30 = some (st', ev) ∧
      st'.branches = (callCount ev : Int) := by
  have hs : (growTree { stream := fun _ => 1, lifeStart := 2, multiplier := 5, baseType := 1, leaves := ["&"], maxY := 10, maxX := 20 } 30).isSome = true := rfl
  obtain ⟨⟨st', ev⟩, heq⟩ := Option.isSome_iff_exists.mp hs
  exact ⟨st', ev, heq, c8_branch_counter.2 _ _ _ _ heq⟩


/-! ### Canvas-floor invariant -/

/-- Every branch of the Direction/Shape Policy moves the cursor down by at
most one row. -/
theorem setDeltas_dy_le (ctx : Ctx) (t : BranchType) (life age : Int) (st : GrowState) :
    (setDeltas ctx t life age st).1.2 ≤ 1 := by
  cases t <;> dsimp only [setDeltas, roll, rand] <;> (repeat' split) <;> norm_num

theorem clampDy_bound (maxY y dy : Int) (hdy : dy ≤ 1) (hy : y ≤ maxY - 1) :
    y + clampDy maxY y dy ≤ maxY - 1 := by
  unfold clampDy
  split <;> omega

theorem runJob_rows (ctx : Ctx) : ∀ (n : Nat) (st : GrowState) (job : Job)
    (st' : GrowState) (ev : List Event),
    jobY job ≤ ctx.maxY - 1 →
    runJob ctx n st job = some (st', ev) →
    ∀ (yw xw : Int) (tw : BranchType) (sw : String),
      Event.write yw xw tw sw ∈ ev → yw ≤ ctx.maxY - 1 := by
  intro n
  induction n using Nat.strong_induction_on with
  | _ n ih =>
  intro st job st' ev hy h yw xw tw sw hmem
  cases job with
  | call y x t life =>
    cases n with
    | zero => simp [runJob] at h
    | succ m =>
      rw [runJob] at h
      split at h
      · cases h
      · rename_i st2 ev2 heq
        cases h
        rcases List.mem_cons.mp hmem with h1 | h1
        · cases h1
        · refine ih m (by omega) _ _ _ _ ?_ heq yw xw tw sw h1
          exact hy
  | loop y x t life sc =>
    cases n with
    | zero =>
      rw [runJob] at h
      split at h
      · cases h; cases hmem
      · cases h
    | succ m =>
      by_cases hl : life ≤ 0
      · rw [runJob, if_pos hl] at h
        cases h; cases hmem
      · rw [runJob, if_neg hl] at h
        dsimp only at h
        have hy' : y + clampDy ctx.maxY y
            (setDeltas ctx t (life - 1) (ctx.lifeStart - (life - 1)) st).1.2 ≤ ctx.maxY - 1 :=
          clampDy_bound _ _ _ (setDeltas_dy_le _ _ _ _ _) hy
        rcases hsp : (spawnChoice ctx t (life - 1) sc
            (setDeltas ctx t (life - 1) (ctx.lifeStart - (life - 1)) st).2.1).1
          with _ | ⟨t', l'⟩
        · rw [hsp] at h
          dsimp only at h
          split at h
          · cases h
          · rename_i st6 ev7 heq
            cases h
            simp only [List.mem_append, List.append_assoc, List.not_mem_nil, or_false,
              false_or] at hmem
            rcases hmem with h1 | h1 | h1 | h1 | h1 | h1
            · exact absurd h1 (modOnly_no_write (setDeltas_frame _ _ _ _ _).2 _ _ _ _)
            · exact absurd h1 (modOnly_no_write (spawnChoice_frame _ _ _ _ _).2 _ _ _ _)
            · exact absurd h1 (modOnly_no_write (chooseColor_frame _ _ _).2 _ _ _ _)
            · exact absurd h1 (modOnly_no_write (chooseString_frame _ _ _ _ _ _).2 _ _ _ _)
            · have := ((emitWrite_frame _ _ _ _).2 _ _ _ _ h1).1
              omega
            · refine ih m (by omega) _ _ _ _ ?_ heq yw xw tw sw h1
              exact hy'
        · rw [hsp] at h
          dsimp only at h
          split at h
          · cases h
          · rename_i st3 ev3 heq1
            split at h
            · cases h
            · rename_i st6 ev7 heq2
              cases h
              simp only [List.mem_append, List.append_assoc, List.not_mem_nil, or_false,
                false_or] at hmem
              rcases hmem with h1 | h1 | h1 | h1 | h1 | h1 | h1
              · exact absurd h1 (modOnly_no_write (setDeltas_frame _ _ _ _ _).2 _ _ _ _)
              · exact absurd h1 (modOnly_no_write (spawnChoice_frame _ _ _ _ _).2 _ _ _ _)
              · refine ih m (by omega) _ _ _ _ ?_ heq1 yw xw tw sw h1
                exact hy
              · exact absurd h1 (modOnly_no_write (chooseColor_frame _ _ _).2 _ _ _ _)
              · exact absurd h1 (modOnly_no_write (chooseString_frame _ _ _ _ _ _).2 _ _ _ _)
              · have := ((emitWrite_frame _ _ _ _).2 _ _ _ _ h1).1
                omega
              · refine ih m (by omega) _ _ _ _ ?_ heq2 yw xw tw sw h1
                exact hy'

/-- Claim C7: if the policy's `dy` would move the cursor below the canvas
floor (row `maxY - 1`), it is clamped toward 0 before the move; consequently
every branch started at a row within the canvas keeps its cursor on-canvas
and no glyph write of its run occurs at a row below the canvas floor. -/
theorem c7_canvas_floor :
    (∀ (maxY y dy : Int), dy ≤ 1 → 0 < dy → maxY - 1 < y + dy →
      clampDy maxY y dy = dy - 1) ∧
    (∀ (ctx : Ctx) (n : Nat) (st : GrowState) (y x : Int) (t : BranchType) (life : Int)
      (st' : GrowState) (ev : List Event),
      y ≤ ctx.maxY - 1 →
      runJob ctx n st (.call y x t life) = some (st', ev) →
      ∀ (yw xw : Int) (tw : BranchType) (sw : String),
        Event.write yw xw tw sw ∈ ev → yw ≤ ctx.maxY - 1) := by
  constructor
  · intro maxY y dy h1 h2 h3
    unfold clampDy
    rw [if_pos ⟨h2, by omega⟩]
  · intro ctx n st y x t life st' ev hy h yw xw tw sw hm
    exact runJob_rows ctx n st (.call y x t life) st' ev hy h yw xw tw sw hm

/-- Claim C7 witness: the clamp fires at the bottom row, and a concrete trunk
run started at the bottom row of a 10-row canvas writes no glyph below row 9. -/
theorem c7_canvas_floor_witness :
    clampDy 10 9 1 = 1 - 1 ∧
    (∃ st' ev, runJob { stream := fun _ => 1, lifeStart := 2, multiplier := 5, baseType := 1, leaves := ["&"], maxY := 10, maxX := 20 } 30 { branches := 0, shoots := 0, shootCounter := 0, idx := 0 } (.call 9 10 .trunk 2) = some (st', ev) ∧
      ∀ (yw xw : Int) (tw : BranchType) (sw : String),
        Event.write yw xw tw sw ∈ ev → yw ≤ 10 - 1) := by
  constructor
  · exact c7_canvas_floor.1 10 9 1 (by decide) (by decide) (by decide)
  · have hs : (runJob { stream := fun _ => 1, lifeStart := 2, multiplier := 5, baseType := 1, leaves := ["&"], maxY := 10, maxX := 20 } 30 { branches := 0, shoots := 0, shootCounter := 0, idx := 0 } (.call 9 10 .trunk 2)).isSome = true := rfl
    obtain ⟨⟨st', ev⟩, heq⟩ := Option.isSome_iff_exists.mp hs
    exact ⟨st', ev, heq, c7_canvas_floor.2 _ _ _ _ _ _ _ _ _ (by decide) heq⟩


/-! ### Divisors of the growth step -/

/-- Truncated halving of an int at least 2 is nonzero. -/
theorem tdiv_two_ne_zero {m : Int} (h : 2 ≤ m) : m.tdiv 2 ≠ 0 := by
  rw [Int.tdiv_eq_ediv (by omega) (by omega)]
  omega

theorem setDeltas_divisors (ctx : Ctx) (t : BranchType) (life age : Int) (st : GrowState)
    (hm : 1 ≤ ctx.multiplier) :
    ∀ d : Int, Event.modUse d ∈ (setDeltas ctx t life age st).2.2 → d ≠ 0 := by
  cases t <;> dsimp only [setDeltas, roll, rand] <;> (repeat' split) <;>
    intro d hd <;> simp at hd <;>
    first
      | (rcases hd with rfl | rfl
         · first
            | omega
            | exact tdiv_two_ne_zero (by omega)
         · omega)
      | (subst hd; omega)

theorem spawnChoice_divisors (ctx : Ctx) (t : BranchType) (life sc : Int) (st : GrowState)
    (hm : 1 ≤ ctx.multiplier) :
    ∀ d : Int, Event.modUse d ∈ (spawnChoice ctx t life sc st).2.2.2 → d ≠ 0 := by
  dsimp only [spawnChoice, rand]
  (repeat' split) <;> intro d hd <;> simp at hd <;>
    first
      | (rcases hd with rfl | rfl | rfl | rfl <;> omega)
      | (rcases hd with rfl | rfl | rfl <;> omega)
      | (rcases hd with rfl | rfl <;> omega)
      | (subst hd; omega)
      | cases hd

theorem chooseColor_divisors (ctx : Ctx) (t : BranchType) (st : GrowState) :
    ∀ d : Int, Event.modUse d ∈ (chooseColor ctx t st).2 → d ≠ 0 := by
  cases t <;> intro d hd <;> simp [chooseColor] at hd <;> omega

theorem chooseString_divisors (ctx : Ctx) (t : BranchType) (life dx dy : Int) (st : GrowState)
    (hl : ctx.leaves ≠ []) :
    ∀ d : Int, Event.modUse d ∈ (chooseString ctx t life dx dy st).2.2 → d ≠ 0 := by
  have hlen : ((ctx.leaves.length : Int)) ≠ 0 := by
    simp [List.length_eq_zero]
    exact hl
  dsimp only [chooseString, leafPick, rand] <;> (repeat' split) <;> intro d hd <;>
    simp at hd <;>
    first
      | (subst hd; exact hlen)
      | cases hd


set_option maxRecDepth 4096 in
theorem chooseString_width (ctx : Ctx) (t : BranchType) (life dx dy : Int) (st : GrowState)
    (hw : ∀ s ∈ ctx.leaves, glyphWidth (strTrunc31 s) ≠ 0) :
    glyphWidth (chooseString ctx t life dx dy st).1 ≠ 0 := by
  have hleaf : ∀ k : Nat, glyphWidth (strTrunc31 (ctx.leaves.getD k "?")) ≠ 0 := by
    intro k
    rcases hget : ctx.leaves[k]? with _ | v
    · rw [List.getD_eq_getElem?_getD, hget]
      decide
    · rw [List.getD_eq_getElem?_getD, hget]
      exact hw v (List.getElem?_mem hget)
  dsimp only [chooseString, leafPick, rand]
  (repeat' split) <;> dsimp only <;> first | exact hleaf _ | decide

theorem emitWrite_divisors (y x : Int) (t : BranchType) (s : String) :
    ∀ d : Int, Event.modUse d ∈ emitWrite y x t s → d = glyphWidth s := by
  unfold emitWrite
  split <;> intro d hd <;> simp at hd <;> exact hd

theorem runJob_divisors (ctx : Ctx) (hm : 1 ≤ ctx.multiplier) (hl : ctx.leaves ≠ [])
    (hw : ∀ s ∈ ctx.leaves, glyphWidth (strTrunc31 s) ≠ 0) :
    ∀ (n : Nat) (st : GrowState) (job : Job) (st' : GrowState) (ev : List Event),
    runJob ctx n st job = some (st', ev) →
    ∀ d : Int, Event.modUse d ∈ ev → d ≠ 0 := by
  intro n
  induction n using Nat.strong_induction_on with
  | _ n ih =>
  intro st job st' ev h d hmem
  cases job with
  | call y x t life =>
    cases n with
    | zero => simp [runJob] at h
    | succ m =>
      rw [runJob] at h
      split at h
      · cases h
      · rename_i st2 ev2 heq
        cases h
        rcases List.mem_cons.mp hmem with h1 | h1
        · cases h1
        · exact ih m (by omega) _ _ _ _ heq d h1
  | loop y x t life sc =>
    cases n with
    | zero =>
      rw [runJob] at h
      split at h
      · cases h; cases hmem
      · cases h
    | succ m =>
      by_cases hl0 : life ≤ 0
      · rw [runJob, if_pos hl0] at h
        cases h; cases hmem
      · rw [runJob, if_neg hl0] at h
        dsimp only at h
        rcases hsp : (spawnChoice ctx t (life - 1) sc
            (setDeltas ctx t (life - 1) (ctx.lifeStart - (life - 1)) st).2.1).1
          with _ | ⟨t', l'⟩
        · rw [hsp] at h
          dsimp only at h
          split at h
          · cases h
          · rename_i st6 ev7 heq
            cases h
            simp only [List.mem_append, List.append_assoc, List.not_mem_nil, or_false,
              false_or] at hmem
            rcases hmem with h1 | h1 | h1 | h1 | h1 | h1
            · exact setDeltas_divisors ctx t _ _ st hm d h1
            · exact spawnChoice_divisors ctx t _ sc _ hm d h1
            · exact chooseColor_divisors ctx t _ d h1
            · exact chooseString_divisors ctx t _ _ _ _ hl d h1
            · rw [emitWrite_divisors _ _ _ _ d h1]
              exact chooseString_width ctx t _ _ _ _ hw
            · exact ih m (by omega) _ _ _ _ heq d h1
        · rw [hsp] at h
          dsimp only at h
          split at h
          · cases h
          · rename_i st3 ev3 heq1
            split at h
            · cases h
            · rename_i st6 ev7 heq2
              cases h
              simp only [List.mem_append, List.append_assoc, List.not_mem_nil, or_false,
                false_or] at hmem
              rcases hmem with h1 | h1 | h1 | h1 | h1 | h1 | h1
              · exact setDeltas_divisors ctx t _ _ st hm d h1
              · exact spawnChoice_divisors ctx t _ sc _ hm d h1
              · exact ih m (by omega) _ _ _ _ heq1 d h1
              · exact chooseColor_divisors ctx t _ d h1
              · exact chooseString_divisors ctx t _ _ _ _ hl d h1
              · rw [emitWrite_divisors _ _ _ _ d h1]
                exact chooseString_width ctx t _ _ _ _ hw
              · exact ih m (by omega) _ _ _ _ heq2 d h1

/-- Claim C5 (amended): for every configuration with `multiplier ≥ 1`, a
non-empty leaf set whose glyphs have nonzero display width, every
modulus/division operation executed by a growth run — including the trunk
policy's age modulus with divisor `(int)(multiplier * 0.5)` and the re-branch
test with divisor `multiplier`, which are recorded as `modUse` events — has a
nonzero divisor.  (For `multiplier = 0` the claim fails, see the
counterexample: the re-branch test `life % conf->multiplier` divides by
zero.) -/
theorem c5_no_division_by_zero (ctx : Ctx) (hm : 1 ≤ ctx.multiplier) (hl : ctx.leaves ≠ [])
    (hw : ∀ s ∈ ctx.leaves, glyphWidth (strTrunc31 s) ≠ 0)
    (fuel : Nat) (st' : GrowState) (ev : List Event)
    (h : growTree ctx fuel = some (st', ev)) :
    ∀ d : Int, Event.modUse d ∈ ev → d ≠ 0 := by
  unfold growTree at h
  dsimp only at h
  exact runJob_divisors ctx hm hl hw fuel _ _ _ _ h

/-- Claim C5 counterexample: with `multiplier = 0` (allowed by the claimed
invariant `multiplier ≥ 0`, with a valid leaf set and `startLife = 4`), the
growth run executes a modulus with divisor 0 — the trunk re-branch test
`life % conf->multiplier` — so the run is not free of division by zero. -/
theorem c5_counterexample :
    (growTree { stream := fun _ => 1, lifeStart := 4, multiplier := 0, baseType := 1, leaves := ["&"], maxY := 10, maxX := 20 } 60).map
      (fun r => hasZeroDivisor r.2) = some true := rfl

/-- Claim C5 witness: a concrete `multiplier = 5` run in which every recorded
divisor is nonzero. -/
theorem c5_no_division_by_zero_witness :
    ∃ st' ev, growTree { stream := fun _ => 1, lifeStart := 2, multiplier := 5, baseType := 1, leaves := ["&"], maxY := 10, maxX := 20 } 40 = some (st', ev) ∧
      ∀ d : Int, Event.modUse d ∈ ev → d ≠ 0 := by
  have hs : (growTree { stream := fun _ => 1, lifeStart := 2, multiplier := 5, baseType := 1, leaves := ["&"], maxY := 10, maxX := 20 } 40).isSome = true := rfl
  obtain ⟨⟨st', ev⟩, heq⟩ := Option.isSome_iff_exists.mp hs
  exact ⟨st', ev, heq,
    c5_no_division_by_zero _ (by decide) (by decide) (by decide) _ _ _ heq⟩


/-! ### Termination -/

/-- Under `ctxDiv`, the policy's state step for a high-life trunk just
advances the stream by one draw. -/
theorem ctxDiv_setDeltas (st : GrowState) (l : Int) (h9 : 9 ≤ l) :
    (setDeltas ctxDiv .trunk (l - 1) (ctxDiv.lifeStart - (l - 1)) st).2.1 =
      { st with idx := st.idx + 1 } := by
  dsimp only [setDeltas, ctxDiv]
  rw [if_neg (by decide), if_pos (Or.inl (by omega))]
  rfl

theorem ctxDiv_spawn (st1 : GrowState) (l sc : Int) (h9 : 9 ≤ l) (hidx : st1.idx % 4 = 2) :
    (spawnChoice ctxDiv .trunk (l - 1) sc st1).1 = some (.trunk, l + 1) ∧
    (spawnChoice ctxDiv .trunk (l - 1) sc st1).2.2.1.idx % 4 = 1 := by
  have hg1 : ctxDiv.stream st1.idx = 0 := by
    show (if st1.idx % 4 = 0 then 4 else 0) = 0
    rw [if_neg (by omega)]
  have hg2 : ctxDiv.stream (st1.idx + 1) = 0 := by
    show (if (st1.idx + 1) % 4 = 0 then 4 else 0) = 0
    rw [if_neg (by omega)]
  have hg3 : ctxDiv.stream (st1.idx + 1 + 1) = 4 := by
    show (if (st1.idx + 1 + 1) % 4 = 0 then 4 else 0) = 4
    rw [if_pos (by omega)]
  have hmul : ctxDiv.multiplier = 5 := rfl
  have c1 : ¬(l - 1 < 3) := by omega
  have c2 : ¬(l - 1 < 5 + 2) := by omega
  have c2' : ¬(l - 1 < 7) := by omega
  have c3 : 7 < l - 1 := by omega
  have h45 : ((4 : Int)).tmod 5 = 4 := by decide
  simp only [spawnChoice, rand, hg1, hg2, hg3, hmul, c1, c2, c2', c3, if_false, if_true,
    Nat.zero_mod, Nat.cast_zero, Int.zero_tmod, Nat.reduceMod, Nat.cast_ofNat, h45,
    true_and, and_true, and_false, false_and, or_false, false_or, reduceCtorEq]
  constructor
  · congr 2
    omega
  · omega


theorem ctxDiv_diverges : ∀ (n : Nat) (st : GrowState) (y x l : Int),
    9 ≤ l → st.idx % 4 = 1 →
    runJob ctxDiv n st (.call y x .trunk l) = none := by
  intro n
  induction n using Nat.strong_induction_on with
  | _ n ih =>
  intro st y x l h9 hidx
  cases n with
  | zero => rfl
  | succ m =>
    rw [runJob]
    cases m with
    | zero =>
      rw [show runJob ctxDiv 0 { st with branches := st.branches + 1 }
          (.loop y x .trunk l ctxDiv.multiplier) = none by
        rw [runJob, if_neg (show ¬(l ≤ 0) by omega)]]
    | succ k =>
      rw [show runJob ctxDiv (k + 1) { st with branches := st.branches + 1 }
          (.loop y x .trunk l ctxDiv.multiplier) = none from ?_]
      rw [runJob, if_neg (show ¬(l ≤ 0) by omega)]
      dsimp only
      rw [ctxDiv_setDeltas _ l h9]
      obtain ⟨hsp1, hsp2⟩ := ctxDiv_spawn
        { { st with branches := st.branches + 1 } with idx := { st with branches := st.branches + 1 }.idx + 1 }
        l ctxDiv.multiplier h9 (by dsimp only; omega)
      rw [hsp1]
      dsimp only
      rw [ih k (by omega) _ y x (l + 1) (by omega) hsp2]

theorem setDeltas_sc (ctx : Ctx) (t : BranchType) (life age : Int) (st : GrowState) :
    (setDeltas ctx t life age st).2.1.shootCounter = st.shootCounter := by
  cases t <;> dsimp only [setDeltas, roll, rand] <;> (repeat' split) <;> rfl

theorem chooseColor_sc (ctx : Ctx) (t : BranchType) (st : GrowState) :
    (chooseColor ctx t st).1.shootCounter = st.shootCounter := by
  cases t <;> rfl

theorem chooseString_sc (ctx : Ctx) (t : BranchType) (life dx dy : Int) (st : GrowState) :
    (chooseString ctx t life dx dy st).2.1.shootCounter = st.shootCounter := by
  dsimp only [chooseString, leafPick, rand]
  (repeat' split) <;> rfl

theorem spawnChoice_sc (ctx : Ctx) (t : BranchType) (life sc : Int) (st : GrowState) :
    (spawnChoice ctx t life sc st).2.2.1.shootCounter = st.shootCounter ∨
    (spawnChoice ctx t life sc st).2.2.1.shootCounter = st.shootCounter + 1 := by
  dsimp only [spawnChoice, rand]
  (repeat' split) <;> first | exact Or.inl rfl | exact Or.inr rfl

theorem runJob_shootCounter (ctx : Ctx) : ∀ (n : Nat) (st : GrowState) (job : Job)
    (st' : GrowState) (ev : List Event),
    runJob ctx n st job = some (st', ev) → 0 ≤ st.shootCounter → 0 ≤ st'.shootCounter := by
  intro n
  induction n using Nat.strong_induction_on with
  | _ n ih =>
  intro st job st' ev h hsc
  cases job with
  | call y x t life =>
    cases n with
    | zero => simp [runJob] at h
    | succ m =>
      rw [runJob] at h
      split at h
      · cases h
      · rename_i st2 ev2 heq
        cases h
        exact ih m (by omega) _ _ _ _ heq hsc
  | loop y x t life sc =>
    cases n with
    | zero =>
      rw [runJob] at h
      split at h
      · cases h; exact hsc
      · cases h
    | succ m =>
      by_cases hl : life ≤ 0
      · rw [runJob, if_pos hl] at h
        cases h; exact hsc
      · rw [runJob, if_neg hl] at h
        dsimp only at h
        have hsd : 0 ≤ (setDeltas ctx t (life - 1) (ctx.lifeStart - (life - 1)) st).2.1.shootCounter := by
          rw [setDeltas_sc]; exact hsc
        have hsp : 0 ≤ (spawnChoice ctx t (life - 1) sc
            (setDeltas ctx t (life - 1) (ctx.lifeStart - (life - 1)) st).2.1).2.2.1.shootCounter := by
          rcases spawnChoice_sc ctx t (life - 1) sc
              (setDeltas ctx t (life - 1) (ctx.lifeStart - (life - 1)) st).2.1 with hh | hh <;>
            rw [hh] <;> omega
        rcases hspc : (spawnChoice ctx t (life - 1) sc
            (setDeltas ctx t (life - 1) (ctx.lifeStart - (life - 1)) st).2.1).1
          with _ | ⟨t', l'⟩
        · rw [hspc] at h
          dsimp only at h
          split at h
          · cases h
          · rename_i st6 ev7 heq
            cases h
            refine ih m (by omega) _ _ _ _ heq ?_
            rw [chooseString_sc, chooseColor_sc]
            exact hsp
        · rw [hspc] at h
          dsimp only at h
          split at h
          · cases h
          · rename_i st3 ev3 heq1
            split at h
            · cases h
            · rename_i st6 ev7 heq2
              cases h
              refine ih m (by omega) _ _ _ _ heq2 ?_
              rw [chooseString_sc, chooseColor_sc]
              exact ih m (by omega) _ _ _ _ heq1 hsp


theorem spawnChoice_dd (ctx : Ctx) (t : BranchType) (ht : t = .dying ∨ t = .dead)
    (l sc : Int) (st : GrowState) :
    spawnChoice ctx t l sc st =
      ((if l < 3 then some (.dead, l) else none), sc, st, []) := by
  unfold spawnChoice
  by_cases h3 : l < 3
  · rw [if_pos h3, if_pos h3]
  · rw [if_neg h3, if_neg h3]
    rcases ht with rfl | rfl <;>
      rw [if_neg (by rintro ⟨hc, -⟩; cases hc),
        if_neg (by rintro ⟨hc, -⟩; rcases hc with hc | hc <;> cases hc),
        if_neg (by rintro hc; cases hc)]

theorem spawnChoice_shoot (ctx : Ctx) (t : BranchType)
    (ht : t = .shootLeft ∨ t = .shootRight) (l sc : Int) (st : GrowState) :
    spawnChoice ctx t l sc st =
      ((if l < 3 then some (.dead, l)
        else if l < ctx.multiplier + 2 then some (.dying, l) else none), sc, st, []) := by
  unfold spawnChoice
  by_cases h3 : l < 3
  · rw [if_pos h3, if_pos h3]
  · rw [if_neg h3, if_neg h3]
    by_cases h7 : l < ctx.multiplier + 2
    · rw [if_pos h7]
      rcases ht with rfl | rfl <;>
        rw [if_neg (by rintro ⟨hc, -⟩; cases hc), if_pos ⟨by tauto, h7⟩]
    · rw [if_neg h7]
      rcases ht with rfl | rfl <;>
        rw [if_neg (by rintro ⟨hc, -⟩; cases hc),
          if_neg (by rintro ⟨-, hc⟩; exact h7 hc),
          if_neg (by rintro hc; cases hc)]

theorem spawnChoice_trunk_small (ctx : Ctx) (l sc : Int) (st : GrowState)
    (hsc : 0 ≤ st.shootCounter) (hl : l ≤ 7) :
    (spawnChoice ctx .trunk l sc st).1 = none ∨
    ((spawnChoice ctx .trunk l sc st).1 = some (.dead, l) ∧ l < 3) ∨
    ((spawnChoice ctx .trunk l sc st).1 = some (.dying, l) ∧ l < ctx.multiplier + 2) ∨
    (∃ t', (t' = .shootLeft ∨ t' = .shootRight) ∧
      (spawnChoice ctx .trunk l sc st).1 = some (t', l + ctx.multiplier)) := by
  unfold spawnChoice
  by_cases h3 : l < 3
  · rw [if_pos h3]
    exact Or.inr (Or.inl ⟨rfl, h3⟩)
  · rw [if_neg h3]
    by_cases h7 : l < ctx.multiplier + 2
    · rw [if_pos ⟨rfl, h7⟩]
      exact Or.inr (Or.inr (Or.inl ⟨rfl, h7⟩))
    · rw [if_neg (by rintro ⟨-, hc⟩; exact h7 hc),
        if_neg (by rintro ⟨hc, -⟩; rcases hc with hc | hc <;> cases hc),
        if_pos rfl]
      dsimp only
      rcases hb : (if ((rand ctx st).1.tmod 3 = 0) then ((true : Bool), [Event.modUse 3])
          else ((decide (l.tmod ctx.multiplier = 0) : Bool),
            [Event.modUse 3, Event.modUse ctx.multiplier])).1 with _ | _
      · exact Or.inl rfl
      · rw [if_pos rfl, if_neg (by rintro ⟨-, hc⟩; omega)]
        by_cases hsc0 : sc ≤ 0
        · rw [if_pos hsc0]
          refine Or.inr (Or.inr (Or.inr ?_))
          have hnn : 0 ≤ (rand ctx (rand ctx st).2).2.shootCounter + 1 := by
            have : (rand ctx (rand ctx st).2).2.shootCounter = st.shootCounter := rfl
            omega
          have hmod : ((rand ctx (rand ctx st).2).2.shootCounter + 1).tmod 2 = 0 ∨
              ((rand ctx (rand ctx st).2).2.shootCounter + 1).tmod 2 = 1 := by
            rw [Int.tmod_eq_emod hnn (by omega)]
            omega
          rcases hmod with hmod | hmod
          · refine ⟨.shootLeft, Or.inl rfl, ?_⟩
            dsimp only
            rw [hmod]
            rfl
          · refine ⟨.shootRight, Or.inr rfl, ?_⟩
            dsimp only
            rw [hmod]
            rfl
        · rw [if_neg hsc0]
          exact Or.inl rfl


theorem runJob_dd (ctx : Ctx) : ∀ n : Nat,
    (∀ (t : BranchType), (t = .dying ∨ t = .dead) → ∀ (l : Int) (st : GrowState) (y x sc : Int),
      2 * l.toNat + 1 ≤ n → (runJob ctx n st (.loop y x t l sc)).isSome) ∧
    (∀ (t : BranchType), (t = .dying ∨ t = .dead) → ∀ (l : Int) (st : GrowState) (y x : Int),
      2 * l.toNat + 2 ≤ n → (runJob ctx n st (.call y x t l)).isSome) := by
  intro n
  induction n using Nat.strong_induction_on with
  | _ n ih =>
  constructor
  · intro t ht l st y x sc hn
    by_cases hl0 : l ≤ 0
    · cases n with
      | zero => rw [runJob, if_pos hl0]; rfl
      | succ m => rw [runJob, if_pos hl0]; rfl
    · cases n with
      | zero => omega
      | succ m =>
        rw [runJob, if_neg hl0]
        dsimp only
        rw [spawnChoice_dd ctx t ht (l - 1) sc _]
        by_cases h3 : l - 1 < 3
        · rw [if_pos h3]
          dsimp only
          obtain ⟨⟨st3, ev3⟩, heq3⟩ := Option.isSome_iff_exists.mp
            ((ih m (by omega)).2 .dead (Or.inr rfl) (l - 1) _ y x (by omega))
          rw [heq3]
          dsimp only
          obtain ⟨⟨st6, ev7⟩, heq6⟩ := Option.isSome_iff_exists.mp
            ((ih m (by omega)).1 t ht (l - 1) _ _ _ _ (by omega))
          rw [heq6]
          rfl
        · rw [if_neg h3]
          dsimp only
          obtain ⟨⟨st6, ev7⟩, heq6⟩ := Option.isSome_iff_exists.mp
            ((ih m (by omega)).1 t ht (l - 1) _ _ _ _ (by omega))
          rw [heq6]
          rfl
  · intro t ht l st y x hn
    cases n with
    | zero => omega
    | succ m =>
      rw [runJob]
      obtain ⟨⟨st2, ev2⟩, heq2⟩ := Option.isSome_iff_exists.mp
        ((ih m (by omega)).1 t ht l _ y x ctx.multiplier (by omega))
      rw [heq2]
      rfl


theorem runJob_shootKind (ctx : Ctx) : ∀ n : Nat,
    (∀ (t : BranchType), (t = .shootLeft ∨ t = .shootRight) →
      ∀ (l : Int) (st : GrowState) (y x sc : Int),
      l.toNat + 2 * ctx.multiplier.toNat + 8 ≤ n →
      (runJob ctx n st (.loop y x t l sc)).isSome) ∧
    (∀ (t : BranchType), (t = .shootLeft ∨ t = .shootRight) →
      ∀ (l : Int) (st : GrowState) (y x : Int),
      l.toNat + 2 * ctx.multiplier.toNat + 9 ≤ n →
      (runJob ctx n st (.call y x t l)).isSome) := by
  intro n
  induction n using Nat.strong_induction_on with
  | _ n ih =>
  constructor
  · intro t ht l st y x sc hn
    by_cases hl0 : l ≤ 0
    · cases n with
      | zero => rw [runJob, if_pos hl0]; rfl
      | succ m => rw [runJob, if_pos hl0]; rfl
    · cases n with
      | zero => omega
      | succ m =>
        rw [runJob, if_neg hl0]
        dsimp only
        rw [spawnChoice_shoot ctx t ht (l - 1) sc _]
        by_cases h3 : l - 1 < 3
        · rw [if_pos h3]
          dsimp only
          obtain ⟨⟨st3, ev3⟩, heq3⟩ := Option.isSome_iff_exists.mp
            ((runJob_dd ctx m).2 .dead (Or.inr rfl) (l - 1) _ y x (by omega))
          rw [heq3]
          dsimp only
          obtain ⟨⟨st6, ev7⟩, heq6⟩ := Option.isSome_iff_exists.mp
            ((ih m (by omega)).1 t ht (l - 1) _ _ _ _ (by omega))
          rw [heq6]
          rfl
        · rw [if_neg h3]
          by_cases hdy : l - 1 < ctx.multiplier + 2
          · rw [if_pos hdy]
            dsimp only
            obtain ⟨⟨st3, ev3⟩, heq3⟩ := Option.isSome_iff_exists.mp
              ((runJob_dd ctx m).2 .dying (Or.inl rfl) (l - 1) _ y x (by omega))
            rw [heq3]
            dsimp only
            obtain ⟨⟨st6, ev7⟩, heq6⟩ := Option.isSome_iff_exists.mp
              ((ih m (by omega)).1 t ht (l - 1) _ _ _ _ (by omega))
            rw [heq6]
            rfl
          · rw [if_neg hdy]
            dsimp only
            obtain ⟨⟨st6, ev7⟩, heq6⟩ := Option.isSome_iff_exists.mp
              ((ih m (by omega)).1 t ht (l - 1) _ _ _ _ (by omega))
            rw [heq6]
            rfl
  · intro t ht l st y x hn
    cases n with
    | zero => omega
    | succ m =>
      rw [runJob]
      obtain ⟨⟨st2, ev2⟩, heq2⟩ := Option.isSome_iff_exists.mp
        ((ih m (by omega)).1 t ht l _ y x ctx.multiplier (by omega))
      rw [heq2]
      rfl


theorem runJob_trunkSmall (ctx : Ctx) : ∀ n : Nat,
    (∀ (l : Int) (st : GrowState) (y x sc : Int), l ≤ 8 → 0 ≤ st.shootCounter →
      l.toNat + 3 * ctx.multiplier.toNat + 17 ≤ n →
      (runJob ctx n st (.loop y x .trunk l sc)).isSome) ∧
    (∀ (l : Int) (st : GrowState) (y x : Int), l ≤ 8 → 0 ≤ st.shootCounter →
      l.toNat + 3 * ctx.multiplier.toNat + 18 ≤ n →
      (runJob ctx n st (.call y x .trunk l)).isSome) := by
  intro n
  induction n using Nat.strong_induction_on with
  | _ n ih =>
  constructor
  · intro l st y x sc hl8 hsc hn
    by_cases hl0 : l ≤ 0
    · cases n with
      | zero => rw [runJob, if_pos hl0]; rfl
      | succ m => rw [runJob, if_pos hl0]; rfl
    · cases n with
      | zero => omega
      | succ m =>
        rw [runJob, if_neg hl0]
        dsimp only
        have hsc1 : 0 ≤ (setDeltas ctx .trunk (l - 1) (ctx.lifeStart - (l - 1)) st).2.1.shootCounter := by
          rw [setDeltas_sc]
          exact hsc
        have hsc2 : 0 ≤ (spawnChoice ctx .trunk (l - 1) sc
            (setDeltas ctx .trunk (l - 1) (ctx.lifeStart - (l - 1)) st).2.1).2.2.1.shootCounter := by
          rcases spawnChoice_sc ctx .trunk (l - 1) sc
              (setDeltas ctx .trunk (l - 1) (ctx.lifeStart - (l - 1)) st).2.1 with hh | hh <;>
            rw [hh] <;> omega
        have hcont : ∀ (st3 : GrowState), 0 ≤ st3.shootCounter →
            (runJob ctx m (chooseString ctx .trunk (l - 1)
                (setDeltas ctx .trunk (l - 1) (ctx.lifeStart - (l - 1)) st).1.1
                (clampDy ctx.maxY y (setDeltas ctx .trunk (l - 1) (ctx.lifeStart - (l - 1)) st).1.2)
                (chooseColor ctx .trunk st3).1).2.1
              (.loop (y + clampDy ctx.maxY y (setDeltas ctx .trunk (l - 1) (ctx.lifeStart - (l - 1)) st).1.2)
                (x + (setDeltas ctx .trunk (l - 1) (ctx.lifeStart - (l - 1)) st).1.1) .trunk (l - 1)
                ((spawnChoice ctx .trunk (l - 1) sc
                  (setDeltas ctx .trunk (l - 1) (ctx.lifeStart - (l - 1)) st).2.1).2.1 - 1))).isSome := by
          intro st3 hsc3
          refine (ih m (by omega)).1 (l - 1) _ _ _ _ (by omega) ?_ (by omega)
          rw [chooseString_sc, chooseColor_sc]
          exact hsc3
        rcases spawnChoice_trunk_small ctx (l - 1) sc
            (setDeltas ctx .trunk (l - 1) (ctx.lifeStart - (l - 1)) st).2.1 hsc1 (by omega)
          with hsp | ⟨hsp, h3⟩ | ⟨hsp, hdy⟩ | ⟨t', ht', hsp⟩
        · rw [hsp]
          dsimp only
          obtain ⟨⟨st6, ev7⟩, heq6⟩ := Option.isSome_iff_exists.mp (hcont _ hsc2)
          rw [heq6]
          rfl
        · rw [hsp]
          dsimp only
          obtain ⟨⟨st3, ev3⟩, heq3⟩ := Option.isSome_iff_exists.mp
            ((runJob_dd ctx m).2 .dead (Or.inr rfl) (l - 1) _ y x (by omega))
          rw [heq3]
          dsimp only
          have hsc3 : 0 ≤ st3.shootCounter := runJob_shootCounter ctx m _ _ _ _ heq3 hsc2
          obtain ⟨⟨st6, ev7⟩, heq6⟩ := Option.isSome_iff_exists.mp (hcont st3 hsc3)
          rw [heq6]
          rfl
        · rw [hsp]
          dsimp only
          obtain ⟨⟨st3, ev3⟩, heq3⟩ := Option.isSome_iff_exists.mp
            ((runJob_dd ctx m).2 .dying (Or.inl rfl) (l - 1) _ y x (by omega))
          rw [heq3]
          dsimp only
          have hsc3 : 0 ≤ st3.shootCounter := runJob_shootCounter ctx m _ _ _ _ heq3 hsc2
          obtain ⟨⟨st6, ev7⟩, heq6⟩ := Option.isSome_iff_exists.mp (hcont st3 hsc3)
          rw [heq6]
          rfl
        · rw [hsp]
          dsimp only
          obtain ⟨⟨st3, ev3⟩, heq3⟩ := Option.isSome_iff_exists.mp
            ((runJob_shootKind ctx m).2 t' ht' (l - 1 + ctx.multiplier) _ y x (by omega))
          rw [heq3]
          dsimp only
          have hsc3 : 0 ≤ st3.shootCounter := runJob_shootCounter ctx m _ _ _ _ heq3 hsc2
          obtain ⟨⟨st6, ev7⟩, heq6⟩ := Option.isSome_iff_exists.mp (hcont st3 hsc3)
          rw [heq6]
          rfl
  · intro l st y x hl8 hsc hn
    cases n with
    | zero => omega
    | succ m =>
      rw [runJob]
      obtain ⟨⟨st2, ev2⟩, heq2⟩ := Option.isSome_iff_exists.mp
        ((ih m (by omega)).1 l { st with branches := st.branches + 1 } y x ctx.multiplier hl8
          hsc (by omega))
      rw [heq2]
      rfl

/-- Claim C1 counterexample: the growth recursion is NOT bounded by life for
every draw sequence.  Under the valid configuration `ctxDiv` (default style,
`startLife = 9 ≥ 0`, `multiplier = 5 ≥ 0`, non-empty leaf set) there is a
random stream — every trunk passes the re-branch test and spawns a trunk
sibling with `life + 2` on its first step — on which the run started by
calling `branch` with a `Trunk` cursor and `remainingLife = startLife` never
reaches `remainingLife = 0`: no amount of fuel completes it. -/
theorem c1_counterexample : ¬ ∃ fuel : Nat, (growTree ctxDiv fuel).isSome := by
  rintro ⟨fuel, hf⟩
  unfold growTree at hf
  dsimp only [rand] at hf
  rw [ctxDiv_diverges fuel _ _ _ ctxDiv.lifeStart (by decide) (by decide)] at hf
  cases hf

/-- Claim C1 (amended): for every valid `GrowthConfig` whose starting life is
at most 8 — so that the `life > 7` guard keeps any trunk sibling from being
spawned — the growth run terminates for every possible sequence of random
draws: fuel `startLife + 3·multiplier + 18` always suffices.  For larger
starting life the recursion is not bounded by life, because a trunk sibling
can be spawned with its life increased by up to 2 and a shoot with life
increased by `multiplier` (see the counterexample). -/
theorem c1_bounded_termination (ctx : Ctx) (h0 : 0 ≤ ctx.lifeStart)
    (h8 : ctx.lifeStart ≤ 8) (hm : 0 ≤ ctx.multiplier) (hl : ctx.leaves ≠ []) :
    (growTree ctx (ctx.lifeStart.toNat + 3 * ctx.multiplier.toNat + 18)).isSome := by
  unfold growTree
  dsimp only
  refine (runJob_trunkSmall ctx _).2 ctx.lifeStart _ _ _ h8 ?_ (by omega)
  exact Int.natCast_nonneg _

/-- Claim C1 witness: the `startLife = 8, multiplier = 5` configuration
terminates within fuel 41, for an arbitrary concrete stream. -/
theorem c1_bounded_termination_witness :
    (growTree { stream := fun i => i * i + 3, lifeStart := 8, multiplier := 5, baseType := 1, leaves := ["&"], maxY := 10, maxX := 20 } 41).isSome :=
  c1_bounded_termination
    { stream := fun i => i * i + 3, lifeStart := 8, multiplier := 5, baseType := 1, leaves := ["&"], maxY := 10, maxX := 20 }
    (by decide) (by decide) (by decide) (by decide)
